import Mathlib

/-!
Verification of the status-server presence/event core.

The definitions below are a shallow embedding of the Go sources:
  * the durable store `fileDB` (db.go): user records, credential checking,
    buddy-request bookkeeping, statuses;
  * the session registry / event fanout `localEventDB` / `localDBSession`
    (events.go): sessions, outbox push with overflow collapse, eviction,
    close, presence masking, full-state snapshots;
  * the outbound scheduler `BufferedConnection` (connection.go): the
    state-lane write path with its overflow-collapse drain loop.

Go slices of records mutated through pointers are modelled as pure lists
with first-match update; the global registry mutex makes every registry
operation a sequential state transformation, which is what the state-passing
functions below compute.  Machine integers do not occur on any modelled
path; times are modelled as naturals supplied by the caller (`now`).
-/

namespace StatusServer

/-- Availability levels, from db.go (`Offline`, `Available`, `Away`). -/
inductive Availability where
  | offline
  | available
  | away
deriving DecidableEq, Repr

/-- `UserStatus` from db.go: availability, free-text message, timestamp,
opaque metadata. `time.Time` is modelled as a natural number. -/
structure UserStatus where
  availability : Availability
  message : String
  time : Nat
  userMetadata : String
deriving DecidableEq, Repr

/-- The zero value of `UserStatus` (Go's zero struct). -/
def UserStatus.zeroVal : UserStatus :=
  { availability := .offline, message := "", time := 0, userMetadata := "" }

/-- `UserInfo` from db.go: one record per registered identity. -/
structure UserInfo where
  email : String
  hash : String
  verifyToken : String
  verified : Bool
  buddies : List String
  incomingRequests : List String
  outgoingRequests : List String
  latestStatus : UserStatus
deriving DecidableEq, Repr

/-- Model of the external bcrypt library used by db.go
(`bcrypt.GenerateFromPassword`): an injective deterministic digest.  The
only property of bcrypt the repository relies on is that
`CompareHashAndPassword h p` succeeds exactly when `h` was generated from
`p`, which this model satisfies by construction. -/
def generateFromPassword (password : String) : String :=
  "bcrypt$" ++ password

/-- Model of `bcrypt.CompareHashAndPassword` from the external bcrypt
library: succeeds (`true`) iff the hash was generated from the password. -/
def compareHashAndPassword (hash password : String) : Bool :=
  hash == generateFromPassword password

/-- `emailsEquivalent` from db.go: exact string equality (the TODO about
case folding is explicitly not implemented). -/
def emailsEquivalent (e1 e2 : String) : Bool :=
  e1 == e2

/-- `containsEmail` from db.go: linear scan with `emailsEquivalent`. -/
def containsEmail : List String → String → Bool
  | [], _ => false
  | item :: rest, email =>
    if emailsEquivalent item email then true else containsEmail rest email

/-- `removeEmail` from db.go: `essentials.OrderedDelete` of the first
occurrence (order preserved, only the first match removed). -/
def removeEmail : List String → String → List String
  | [], _ => []
  | item :: rest, email =>
    if emailsEquivalent item email then rest else item :: removeEmail rest email

/-- `fileDB.findUser`: first record whose email matches. -/
def findUser : List UserInfo → String → Option UserInfo
  | [], _ => none
  | u :: rest, email =>
    if emailsEquivalent u.email email then some u else findUser rest email

/-- Pure counterpart of mutating a record through the pointer returned by
`findUser`: apply `f` to the first record whose email matches. -/
def updateFirstUser : List UserInfo → String → (UserInfo → UserInfo) → List UserInfo
  | [], _, _ => []
  | u :: rest, email, f =>
    if emailsEquivalent u.email email then f u :: rest
    else u :: updateFirstUser rest email f

/-- The error string of `ErrNoEmail` in db.go. -/
def errNoEmail : String := "no such email address"

/-- The error string of `ErrPassword` in db.go / bcrypt mismatch. -/
def errPassword : String := "password incorrect"

/-- `fileDB.CheckLogin` from db.go: find the user, compare the bcrypt hash;
unknown email yields `ErrNoEmail`. -/
def dbCheckLogin (db : List UserInfo) (email password : String) : Option String :=
  match findUser db email with
  | some user =>
    if compareHashAndPassword user.hash password then none else some errPassword
  | none => some errNoEmail

/-- `fileDB.AddUser` from db.go: reject a duplicate email, otherwise append
a fresh verified record whose status is `Available` stamped `now`. -/
def dbAddUser (db : List UserInfo) (email password : String) (now : Nat) :
    Option String × List UserInfo :=
  match findUser db email with
  | some _ => (some "email already in use", db)
  | none =>
    (none, db ++ [{ email := email
                    hash := generateFromPassword password
                    verifyToken := ""
                    verified := true
                    buddies := []
                    incomingRequests := []
                    outgoingRequests := []
                    latestStatus := { availability := .available, message := ""
                                      time := now, userMetadata := "" } }])

/-- `fileDB.GetUserInfo` from db.go (the `Copy` is identity under value
semantics). -/
def dbGetUserInfo (db : List UserInfo) (email : String) : Except String UserInfo :=
  match findUser db email with
  | some user => .ok user
  | none => .error errNoEmail

/-- `fileDB.SetPassword` from db.go, faithfully including its fall-through:
when the user is found and the old password matches, the hash IS updated
in the records, and then control falls through to `return ErrNoEmail`, so
the call reports an error in every case.  The pair is
(returned error, records after the call). -/
def dbSetPassword (db : List UserInfo) (email oldPass newPass : String) :
    Option String × List UserInfo :=
  match findUser db email with
  | some user =>
    if compareHashAndPassword user.hash oldPass then
      (some errNoEmail,
       updateFirstUser db email (fun u => { u with hash := generateFromPassword newPass }))
    else (some errPassword, db)
  | none => (some errNoEmail, db)

/-- `fileDB.SendRequest` from db.go: both users must exist; the target must
not already be a buddy nor have a request pending in either direction; on
success the target gains an incoming entry and the sender an outgoing one. -/
def dbSendRequest (db : List UserInfo) (fromEmail toEmail : String) :
    Option String × List UserInfo :=
  match findUser db fromEmail with
  | some fromUser =>
    match findUser db toEmail with
    | some toUser =>
      if containsEmail toUser.buddies fromUser.email then
        (some "already buddies", db)
      else if containsEmail toUser.outgoingRequests fromUser.email then
        (some "request exists in the other direction", db)
      else if containsEmail toUser.incomingRequests fromUser.email then
        (some "request already exists", db)
      else
        let db1 := updateFirstUser db toEmail
          (fun u => { u with incomingRequests := u.incomingRequests ++ [fromUser.email] })
        let db2 := updateFirstUser db1 fromEmail
          (fun u => { u with outgoingRequests := u.outgoingRequests ++ [toUser.email] })
        (none, db2)
    | none => (some errNoEmail, db)
  | none => (some errNoEmail, db)

/-- `fileDB.AcceptRequest` from db.go: requires a pending outgoing request
from `other` to `email`; moves both sides from the request lists into the
buddy lists, in the source's mutation order. -/
def dbAcceptRequest (db : List UserInfo) (email other : String) :
    Option String × List UserInfo :=
  match findUser db email with
  | some user =>
    match findUser db other with
    | some otherUser =>
      if !containsEmail otherUser.outgoingRequests user.email then
        (some "request does not exist", db)
      else
        let db1 := updateFirstUser db other
          (fun u => { u with outgoingRequests := removeEmail u.outgoingRequests user.email })
        let db2 := updateFirstUser db1 email
          (fun u => { u with incomingRequests := removeEmail u.incomingRequests otherUser.email })
        let db3 := updateFirstUser db2 other
          (fun u => { u with buddies := u.buddies ++ [user.email] })
        let db4 := updateFirstUser db3 email
          (fun u => { u with buddies := u.buddies ++ [otherUser.email] })
        (none, db4)
    | none => (some errNoEmail, db)
  | none => (some errNoEmail, db)

/-- `fileDB.DeleteBuddy` from db.go: removes whichever of the three
relationships exists (pending incoming, pending outgoing, buddies — checked
in that order), mirrored on both sides; errors when none exists. -/
def dbDeleteBuddy (db : List UserInfo) (email other : String) :
    Option String × List UserInfo :=
  match findUser db email with
  | some user =>
    match findUser db other with
    | some otherUser =>
      if containsEmail user.incomingRequests otherUser.email then
        let db1 := updateFirstUser db email
          (fun u => { u with incomingRequests := removeEmail u.incomingRequests otherUser.email })
        let db2 := updateFirstUser db1 other
          (fun u => { u with outgoingRequests := removeEmail u.outgoingRequests user.email })
        (none, db2)
      else if containsEmail user.outgoingRequests otherUser.email then
        let db1 := updateFirstUser db email
          (fun u => { u with outgoingRequests := removeEmail u.outgoingRequests otherUser.email })
        let db2 := updateFirstUser db1 other
          (fun u => { u with incomingRequests := removeEmail u.incomingRequests user.email })
        (none, db2)
      else if containsEmail user.buddies otherUser.email then
        let db1 := updateFirstUser db email
          (fun u => { u with buddies := removeEmail u.buddies otherUser.email })
        let db2 := updateFirstUser db1 other
          (fun u => { u with buddies := removeEmail u.buddies user.email })
        (none, db2)
      else (some "not buddies", db)
    | none => (some errNoEmail, db)
  | none => (some errNoEmail, db)

/-- `fileDB.SetStatus` from db.go: only `Available`/`Away` are accepted;
the stored status is the argument with its time restamped to `now`. -/
def dbSetStatus (db : List UserInfo) (email : String) (status : UserStatus) (now : Nat) :
    Option String × List UserInfo :=
  match findUser db email with
  | some _ =>
    if status.availability != .available && status.availability != .away then
      (some "invalid availability", db)
    else
      (none, updateFirstUser db email
        (fun u => { u with latestStatus := { status with time := now } }))
  | none => (some errNoEmail, db)

/-- `fileDB.GetStatuses` from db.go: one status per requested email, in
request order; the first unknown email aborts the whole call with
`ErrNoEmail` and no partial result. -/
def dbGetStatuses (db : List UserInfo) : List String → Except String (List UserStatus)
  | [] => .ok []
  | email :: rest =>
    match findUser db email with
    | some user =>
      match dbGetStatuses db rest with
      | .ok l => .ok (user.latestStatus :: l)
      | .error e => .error e
    | none => .error errNoEmail

instance {α β : Type} [DecidableEq α] [DecidableEq β] : DecidableEq (Except α β)
  | .error a, .error b =>
    if h : a = b then isTrue (by rw [h])
    else isFalse (by intro hh; cases hh; exact h rfl)
  | .error _, .ok _ => isFalse (by intro h; cases h)
  | .ok _, .error _ => isFalse (by intro h; cases h)
  | .ok a, .ok b =>
    if h : a = b then isTrue (by rw [h])
    else isFalse (by intro hh; cases hh; exact h rfl)

/-- `ErrIntentionalDisconnect` from events.go. -/
def errIntentionalDisconnect : String := "the DB session was intentionally closed"

/-- `ErrNotOpen` from events.go. -/
def errNotOpen : String := "not open"

/-- `EventType` from events.go. -/
inductive EventType where
  | fullState
  | intentionalDisconnect
  | requestSent
  | requestReceived
  | acceptSent
  | requestAccepted
  | buddyRemoved
  | statusChanged
  | syncError
deriving DecidableEq, Repr

/-- `Event` from events.go; unset fields default to Go zero values. -/
structure Event where
  type : EventType
  userInfo : Option UserInfo := none
  buddyStatuses : List UserStatus := []
  email : String := ""
  status : UserStatus := UserStatus.zeroVal
  errorMessage : String := ""
deriving DecidableEq, Repr

/-- `localDBSession` from events.go.  The Go pointer identity used by
`sess == l` / `sess != l` comparisons is modelled by a numeric `id`; the
buffered events channel is modelled as a list (front = oldest). -/
structure LocalDBSession where
  id : Nat
  email : String
  events : List Event
  intentionalDiscon : Bool := false
  closed : Bool := false
deriving DecidableEq, Repr

/-- `localEventDB` from events.go.  `sessions` is the registry list
`l.sessions`; `detached` holds session objects that were removed from the
registry (force-evicted or closed) but are still referenced by their
clients, so that their flags and channels remain observable. -/
structure LocalEventDB where
  sessions : List LocalDBSession
  detached : List LocalDBSession
  db : List UserInfo
  bufferSize : Nat
  nextId : Nat := 0
deriving DecidableEq, Repr

/-- Look up a session object by identity, first in the registry, then among
detached (evicted/closed) sessions. -/
def getSession (st : LocalEventDB) (sid : Nat) : Option LocalDBSession :=
  match st.sessions.find? (fun s => s.id == sid) with
  | some s => some s
  | none => st.detached.find? (fun s => s.id == sid)

/-- Apply `f` to every session object with identity `sid`, wherever it
lives (registry or detached). -/
def mapSession (sid : Nat) (f : LocalDBSession → LocalDBSession) (st : LocalEventDB) :
    LocalEventDB :=
  { st with
    sessions := st.sessions.map (fun s => if s.id == sid then f s else s)
    detached := st.detached.map (fun s => if s.id == sid then f s else s) }

/-- `localEventDB.userOnline`: some registered session carries the email. -/
def userOnline (st : LocalEventDB) (email : String) : Bool :=
  st.sessions.any (fun s => emailsEquivalent s.email email)

/-- `localEventDB.maskUserStatus`: deliver the stored status only while the
identity has a live session; otherwise synthesize `Offline` at `now`. -/
def maskUserStatus (st : LocalEventDB) (email : String) (status : UserStatus) (now : Nat) :
    UserStatus :=
  if userOnline st email then status
  else { availability := .offline, message := "", time := now, userMetadata := "" }

/-- The masking loop of `localDBSession.fullStateEvent`: statuses are paired
positionally with the buddy list. -/
def maskStatuses (st : LocalEventDB) (buddies : List String) (statuses : List UserStatus)
    (now : Nat) : List UserStatus :=
  (buddies.zip statuses).map (fun p => maskUserStatus st p.1 p.2 now)

/-- `localDBSession.fullStateEvent`: read the user record and its buddies'
statuses from the store, mask them, and build the FullState event. -/
def fullStateEvent (st : LocalEventDB) (email : String) (now : Nat) : Except String Event :=
  match dbGetUserInfo st.db email with
  | .error e => .error e
  | .ok userInfo =>
    match dbGetStatuses st.db userInfo.buddies with
    | .error e => .error e
    | .ok statuses =>
      .ok { type := .fullState
            userInfo := some userInfo
            buddyStatuses := maskStatuses st userInfo.buddies statuses now }

/-- `localDBSession.clearAndPush`: with no concurrent consumer, draining the
channel and sending leaves exactly the one pushed event. -/
def clearAndPush (e : Event) (s : LocalDBSession) : LocalDBSession :=
  { s with events := [e] }

/-- The event with which an overflowing push collapses the outbox: a fresh
FullState from the store, or SyncError when that read fails. -/
def collapseEvent (st : LocalEventDB) (email : String) (now : Nat) : Event :=
  match fullStateEvent st email now with
  | .ok fse => fse
  | .error msg => { type := .syncError, errorMessage := msg }

/-- `localDBSession.pushEvent` acting on one session object: non-blocking
enqueue while below capacity, otherwise collapse via `clearAndPush`. -/
def pushEventSession (st : LocalEventDB) (s : LocalDBSession) (e : Event) (now : Nat) :
    LocalDBSession :=
  if s.events.length < st.bufferSize then { s with events := s.events ++ [e] }
  else clearAndPush (collapseEvent st s.email now) s

/-- `pushEvent` on the session with identity `sid` inside the registry
state. -/
def pushToSessionId (st : LocalEventDB) (sid : Nat) (e : Event) (now : Nat) : LocalEventDB :=
  mapSession sid (fun s => pushEventSession st s e now) st

/-- Fold a sequence of pushes to the same session (the "N pushes with no
draining" experiment of the spec). -/
def pushMany (st : LocalEventDB) (sid : Nat) (es : List Event) (now : Nat) : LocalEventDB :=
  es.foldl (fun acc e => pushToSessionId acc sid e now) st

/-- A registry-iteration loop that pushes the same event to a list of
session identities in order (the shape shared by `broadcastNewStatus`,
`pushToUser` and `cannotBroadcast` in events.go). -/
def foldPush (st : LocalEventDB) (ids : List Nat) (e : Event) (now : Nat) : LocalEventDB :=
  ids.foldl (fun acc sid => pushToSessionId acc sid e now) st

/-- `localEventDB.cannotBroadcast`: push a SyncError to every registered
session. -/
def cannotBroadcast (st : LocalEventDB) (now : Nat) : LocalEventDB :=
  foldPush st (st.sessions.map (fun s => s.id))
    { type := .syncError, errorMessage := "could not keep data consistent" } now

/-- `localEventDB.broadcastNewStatus`: on a readable store, push one
StatusChanged to every registered session whose email is a buddy of
`email` (the inner `break` delivers at most one per session); on a failed
read, degrade to `cannotBroadcast`. -/
def broadcastNewStatus (st : LocalEventDB) (email : String) (status : UserStatus)
    (now : Nat) : LocalEventDB :=
  match dbGetUserInfo st.db email with
  | .error _ => cannotBroadcast st now
  | .ok info =>
    foldPush st
      ((st.sessions.filter (fun s => containsEmail info.buddies s.email)).map (fun s => s.id))
      { type := .statusChanged, status := status } now

/-- `localEventDB.pushToUser`: push the event to every registered session of
the identity. -/
def pushToUser (st : LocalEventDB) (email : String) (e : Event) (now : Nat) : LocalEventDB :=
  foldPush st
    ((st.sessions.filter (fun s => emailsEquivalent s.email email)).map (fun s => s.id))
    e now

/-- `localEventDB.BeginSession` from events.go.  Note that the `password`
argument is never consulted: the Go method builds the session and its
initial FullState event without ever calling `DB.CheckLogin`.  On a failed
snapshot the session is not registered; on success the new session (with
the snapshot as its only queued event) is appended to the registry.
Returns the new session's identity alongside the new state. -/
def beginSession (st : LocalEventDB) (email password : String) (now : Nat) :
    Except String (LocalEventDB × Nat) :=
  let sid := st.nextId
  match fullStateEvent st email now with
  | .error e => .error e
  | .ok fse =>
    .ok ({ st with
           sessions := st.sessions ++
             [{ id := sid, email := email, events := [fse] }]
           nextId := sid + 1 }, sid)

/-- The loop body of `localDBSession.disconnectOthers`: scan the registry;
every other session with the caller's email is marked
`intentionalDiscon`, its outbox is force-collapsed to the single
IntentionalDisconnect event, and it is removed from the registry.  Returns
(sessions kept, sessions evicted, in order). -/
def evictLoop (selfId : Nat) (email : String) :
    List LocalDBSession → List LocalDBSession × List LocalDBSession
  | [] => ([], [])
  | s :: rest =>
    if s.id != selfId && emailsEquivalent s.email email then
      let s' := clearAndPush { type := .intentionalDisconnect }
        { s with intentionalDiscon := true }
      let (keep, evicted) := evictLoop selfId email rest
      (keep, s' :: evicted)
    else
      let (keep, evicted) := evictLoop selfId email rest
      (s :: keep, evicted)

/-- `localDBSession.disconnectOthers` (the private helper): evict every
other registered session of the identity; evicted session objects stay
observable in `detached`. -/
def disconnectOthersRaw (st : LocalEventDB) (selfId : Nat) (email : String) : LocalEventDB :=
  let p := evictLoop selfId email st.sessions
  { st with sessions := p.1, detached := st.detached ++ p.2 }

/-- `localDBSession.genericOperation`: reject with `ErrNotOpen` on a closed
session and `ErrIntentionalDisconnect` on a force-evicted one, leaving the
state untouched; otherwise run the body. -/
def genericOperation (st : LocalEventDB) (sid : Nat)
    (f : LocalEventDB → LocalDBSession → Option String × LocalEventDB) :
    Option String × LocalEventDB :=
  match getSession st sid with
  | none => (some "no such session", st)
  | some s =>
    if s.closed then (some errNotOpen, st)
    else if s.intentionalDiscon then (some errIntentionalDisconnect, st)
    else f st s

/-- `localDBSession.SetPassword`: delegate to the store; only on a nil
store error evict the other sessions.  The store's in-memory mutation is
kept even when the store call reports an error (this mirrors
`fileDB.SetPassword`'s fall-through). -/
def sessionSetPassword (st : LocalEventDB) (sid : Nat) (oldPass newPass : String) :
    Option String × LocalEventDB :=
  genericOperation st sid (fun st s =>
    match dbSetPassword st.db s.email oldPass newPass with
    | (some e, db') => (some e, { st with db := db' })
    | (none, db') => (none, disconnectOthersRaw { st with db := db' } s.id s.email))

/-- `localDBSession.SendRequest`: store mutation, then RequestReceived to
the target's sessions and RequestSent to the caller's sessions. -/
def sessionSendRequest (st : LocalEventDB) (sid : Nat) (email : String) (now : Nat) :
    Option String × LocalEventDB :=
  genericOperation st sid (fun st s =>
    match dbSendRequest st.db s.email email with
    | (some e, db') => (some e, { st with db := db' })
    | (none, db') =>
      let st1 := { st with db := db' }
      let st2 := pushToUser st1 email { type := .requestReceived, email := s.email } now
      let st3 := pushToUser st2 s.email { type := .requestSent, email := email } now
      (none, st3))

/-- `localDBSession.AcceptRequest`: read both statuses, mask them at this
moment, apply the store mutation, then push RequestAccepted (carrying the
caller's masked status) to the target and AcceptSent (carrying the
target's masked status) to the caller. -/
def sessionAcceptRequest (st : LocalEventDB) (sid : Nat) (email : String) (now : Nat) :
    Option String × LocalEventDB :=
  genericOperation st sid (fun st s =>
    match dbGetStatuses st.db [s.email, email] with
    | .error e => (some e, st)
    | .ok statuses =>
      let ourStatus := maskUserStatus st s.email (statuses.getD 0 UserStatus.zeroVal) now
      let otherStatus := maskUserStatus st email (statuses.getD 1 UserStatus.zeroVal) now
      match dbAcceptRequest st.db s.email email with
      | (some e, db') => (some e, { st with db := db' })
      | (none, db') =>
        let st1 := { st with db := db' }
        let st2 := pushToUser st1 email
          { type := .requestAccepted, email := s.email, status := ourStatus } now
        let st3 := pushToUser st2 s.email
          { type := .acceptSent, email := email, status := otherStatus } now
        (none, st3))

/-- `localDBSession.DeleteBuddy`: store mutation, then BuddyRemoved to both
sides. -/
def sessionDeleteBuddy (st : LocalEventDB) (sid : Nat) (email : String) (now : Nat) :
    Option String × LocalEventDB :=
  genericOperation st sid (fun st s =>
    match dbDeleteBuddy st.db s.email email with
    | (some e, db') => (some e, { st with db := db' })
    | (none, db') =>
      let st1 := { st with db := db' }
      let st2 := pushToUser st1 email { type := .buddyRemoved, email := s.email } now
      let st3 := pushToUser st2 s.email { type := .buddyRemoved, email := email } now
      (none, st3))

/-- `localDBSession.SetStatus`: stamp the time, persist, then broadcast
StatusChanged to buddies' sessions. -/
def sessionSetStatus (st : LocalEventDB) (sid : Nat) (status : UserStatus) (now : Nat) :
    Option String × LocalEventDB :=
  genericOperation st sid (fun st s =>
    let status' := { status with time := now }
    match dbSetStatus st.db s.email status' now with
    | (some e, db') => (some e, { st with db := db' })
    | (none, db') =>
      (none, broadcastNewStatus { st with db := db' } s.email status' now))

/-- `localDBSession.DisconnectOthers` (public): a generic operation whose
body evicts the caller's other sessions. -/
def sessionDisconnectOthers (st : LocalEventDB) (sid : Nat) : Option String × LocalEventDB :=
  genericOperation st sid (fun st s => (none, disconnectOthersRaw st s.id s.email))

/-- Result of `localDBSession.Close`: success, the `ErrNotOpen` error, or
the `panic("internal inconsistency")` branch. -/
inductive CloseResult where
  | ok
  | errNotOpen
  | panicMissing
deriving DecidableEq, Repr

/-- `essentials.UnorderedDelete`: overwrite index `i` with the last element
and drop the last slot. -/
def unorderedDelete (l : List LocalDBSession) (i : Nat) : List LocalDBSession :=
  match l.getLast? with
  | none => []
  | some last => (l.set i last).dropLast

/-- `localDBSession.Close` from events.go: a second close errors with
`ErrNotOpen`; closing a force-evicted session merely marks it closed and
reports success; a normal close removes the session from the registry
(unordered delete) and, when no session of the identity remains, broadcasts
an Offline StatusChanged to the buddies' sessions.  An open session missing
from the registry panics. -/
def sessionClose (st : LocalEventDB) (sid : Nat) (now : Nat) : CloseResult × LocalEventDB :=
  match getSession st sid with
  | none => (.panicMissing, st)
  | some s =>
    if s.closed then (.errNotOpen, st)
    else if s.intentionalDiscon then
      (.ok, mapSession sid (fun x => { x with closed := true }) st)
    else
      match st.sessions.findIdx? (fun x => x.id == sid) with
      | none => (.panicMissing, st)
      | some i =>
        let st2 := { st with
                     sessions := unorderedDelete st.sessions i
                     detached := st.detached ++ [{ s with closed := true }] }
        if userOnline st2 s.email then (.ok, st2)
        else
          (.ok, broadcastNewStatus st2 s.email
            { availability := .offline, message := "", time := now, userMetadata := "" } now)

/-!  Outbound scheduler (connection.go).  -/

/-- `StateBufferSize` from connection.go. -/
def StateBufferSize : Nat := 10

/-- The `message` struct of connection.go; the `interface{}` payload is
modelled as a string, which is all the claims need. -/
structure ConnMessage where
  msgType : String
  data : String
deriving DecidableEq, Repr

/-- The channel/flag state of a `BufferedConnection` that the state-lane
write path touches: the buffered `stateSends` channel (list + closed flag)
and the `closeChan` signal. -/
structure BufferedConnState where
  stateSends : List ConnMessage
  stateSendsClosed : Bool
  closeChanClosed : Bool
  cap : Nat
deriving DecidableEq, Repr

/-- `NewBufferedConnection`: empty state buffer of depth `StateBufferSize`,
no channel closed.  Nowhere in connection.go is `b.stateSends` ever
closed — only `closeChan` is (in `Close`). -/
def newBufferedConnection : BufferedConnState :=
  { stateSends := [], stateSendsClosed := false, closeChanClosed := false
    cap := StateBufferSize }

/-- `BufferedConnection.Close`: closes `closeChan` (idempotently) and never
touches `stateSends`. -/
def bufferedClose (b : BufferedConnState) : BufferedConnState :=
  { b with closeChanClosed := true }

/-- Outcome of one `WriteMessage` call under a fuel bound: the call
returned successfully, returned an error, or had not returned after `fuel`
loop iterations / was blocked. -/
inductive WriteOutcome where
  | returnedOk
  | returnedErr (msg : String)
  | didNotReturn
deriving DecidableEq, Repr

/-- Semantics of Go's `for _ = range ch { }` over a buffered channel with
no concurrent sender (the caller holds `stateSendLock`, so no other
producer can run): each iteration consumes one buffered value; when the
buffer is empty the loop terminates only if the channel has been closed,
and otherwise blocks forever (`none`).  `fuel` bounds the number of
iterations we unfold. -/
def rangeDrain : Nat → List ConnMessage → Bool → Option Unit
  | 0, _, _ => none
  | _ + 1, [], closedFlag => if closedFlag then some () else none
  | fuel + 1, _ :: rest, closedFlag => rangeDrain fuel rest closedFlag

/-- The state-lane path of `BufferedConnection.WriteMessage`
(connection.go lines 118-133): non-blocking enqueue while below capacity;
on a full buffer, call the state getter (propagating its error), then run
`for _ = range b.stateSends { }` before enqueueing the full-state
message. -/
def writeStateMessage (fuel : Nat) (b : BufferedConnState)
    (stateGetter : Except String String) (m : ConnMessage) :
    WriteOutcome × BufferedConnState :=
  if b.stateSends.length < b.cap then
    (.returnedOk, { b with stateSends := b.stateSends ++ [m] })
  else
    match stateGetter with
    | .error e => (.returnedErr e, b)
    | .ok fullState =>
      match rangeDrain fuel b.stateSends b.stateSendsClosed with
      | none => (.didNotReturn, b)
      | some _ =>
        (.returnedOk,
         { b with stateSends := [{ msgType := "full_state", data := fullState }] })

/-- A registered user record as `fileDB.AddUser` creates it. -/
def mkUser (email pass : String) : UserInfo :=
  { email := email
    hash := generateFromPassword pass
    verifyToken := ""
    verified := true
    buddies := []
    incomingRequests := []
    outgoingRequests := []
    latestStatus := { availability := .available, message := "", time := 0
                      userMetadata := "" } }

/-- An event registry over the given store with no sessions yet. -/
def emptyRegistry (db : List UserInfo) (bufferSize : Nat) : LocalEventDB :=
  { sessions := [], detached := [], db := db, bufferSize := bufferSize, nextId := 0 }

/-!  Concrete states used to evaluate the defective code paths.  -/

/-- A registry with one registered user `a@x` (password `pw`) and two live
sessions (ids 0 and 1) of that identity. -/
def twoSessionState : LocalEventDB :=
  { sessions := [{ id := 0, email := "a@x", events := [] },
                 { id := 1, email := "a@x", events := [] }]
    detached := [], db := [mkUser "a@x" "pw"], bufferSize := 10, nextId := 2 }

/-- A registry with one registered user and one session whose outbox has
capacity 2. -/
def smallOutboxState : LocalEventDB :=
  { sessions := [{ id := 0, email := "a@x", events := [] }]
    detached := [], db := [mkUser "a@x" "pw"], bufferSize := 2, nextId := 1 }

/-- A `BufferedConnection` whose state lane is full (`StateBufferSize`
queued messages) and, as always in connection.go, whose `stateSends`
channel has never been closed. -/
def fullStateLane : BufferedConnState :=
  { newBufferedConnection with
    stateSends := List.replicate StateBufferSize { msgType := "status_changed", data := "" } }

/-- With no concurrent sender, `for _ = range ch` over a buffered channel
that is never closed consumes the buffered values and then blocks forever:
it completes under no fuel bound. -/
theorem rangeDrain_open_blocks (fuel : Nat) :
    ∀ buf : List ConnMessage, rangeDrain fuel buf false = none := by
  induction fuel with
  | zero => intro buf; rfl
  | succ n ih =>
    intro buf
    cases buf with
    | nil => rfl
    | cons h t => simpa [rangeDrain] using ih t

/-- **C1** (code bug): `localEventDB.BeginSession` never consults the
password.  With the store holding user `a@x` whose credential hash was
generated from `pw`, the store's own `CheckLogin` rejects the password
`wrong`, yet `BeginSession("a@x", "wrong")` succeeds and registers a
session for `a@x` — no credential error is returned. -/
theorem beginSession_skips_credential_check :
    dbCheckLogin [mkUser "a@x" "pw"] "a@x" "wrong" = some errPassword ∧
    (beginSession (emptyRegistry [mkUser "a@x" "pw"] 10) "a@x" "wrong" 0).map
      (fun p => p.1.sessions.map (fun s => s.email)) = .ok ["a@x"] := by
  decide

/-- **C2** (code bug): `SetPassword` with the correct current password on a
user with two live sessions returns the error `ErrNoEmail` (because
`fileDB.SetPassword` falls through to `return ErrNoEmail` after updating
the hash), the other session of the identity is *not* evicted, and yet the
stored credential hash *was* replaced. -/
theorem setPassword_errors_and_skips_eviction :
    (sessionSetPassword twoSessionState 0 "pw" "new").1 = some errNoEmail ∧
    (sessionSetPassword twoSessionState 0 "pw" "new").2.sessions.map (fun s => s.id)
      = [0, 1] ∧
    (sessionSetPassword twoSessionState 0 "pw" "new").2.db.map (fun u => u.hash)
      = [generateFromPassword "new"] := by
  decide

/-- **C3** (code bug): `fileDB.SetPassword` with a correct old password
mutates the store's user records (the hash is rewritten) *and* returns an
error — violating the all-or-nothing propagation policy at this input. -/
theorem setPassword_mutates_despite_error :
    (dbSetPassword [mkUser "a@x" "pw"] "a@x" "pw" "new").1 = some errNoEmail ∧
    (dbSetPassword [mkUser "a@x" "pw"] "a@x" "pw" "new").2 ≠ [mkUser "a@x" "pw"] := by
  decide

/-- **C4** (code bug): a state-lane `WriteMessage` that finds the state
buffer full and whose state getter succeeds never returns: the drain loop
`for _ = range b.stateSends` can only terminate once the channel is
closed, and connection.go never closes `stateSends`.  No fuel bound large
enough exists, the queued messages are not replaced by a full-state
message, and the call blocks instead of failing or succeeding. -/
theorem writeMessage_overflow_never_returns (fuel : Nat) (b : BufferedConnState)
    (m : ConnMessage) (fullState : String)
    (hfull : ¬ b.stateSends.length < b.cap) (hopen : b.stateSendsClosed = false) :
    writeStateMessage fuel b (.ok fullState) m = (.didNotReturn, b) := by
  simp [writeStateMessage, hfull, hopen, rangeDrain_open_blocks]

/-- Witness for `writeMessage_overflow_never_returns` at a concrete full
lane and fuel 1000. -/
theorem writeMessage_overflow_never_returns_witness :
    (¬ fullStateLane.stateSends.length < fullStateLane.cap) ∧
    fullStateLane.stateSendsClosed = false ∧
    writeStateMessage 1000 fullStateLane (.ok "fs")
      { msgType := "status_changed", data := "" } = (.didNotReturn, fullStateLane) :=
  ⟨by decide, rfl,
   writeMessage_overflow_never_returns 1000 fullStateLane
     { msgType := "status_changed", data := "" } "fs" (by decide) rfl⟩

/-- **C6** (counterexample): with outbox capacity K = 2 and N = 4 > K
pushes of StatusChanged deltas and no draining, the outbox ends holding
*two* events — the collapse snapshot from the third push followed by the
fourth delta — not exactly one, and a delta sits next to the snapshot. -/
theorem outbox_bound_counterexample :
    (pushMany smallOutboxState 0 (List.replicate 4 { type := .statusChanged }) 0).sessions.map
      (fun s => s.events.map (fun e => e.type))
      = [[EventType.fullState, EventType.statusChanged]] := by
  decide

/-!  Fanout: what a sequence of `pushEvent`s does to the registry when the
target outboxes have room.  -/

theorem foldPush_cons (st : LocalEventDB) (sid : Nat) (ids : List Nat) (e : Event)
    (now : Nat) :
    foldPush st (sid :: ids) e now = foldPush (pushToSessionId st sid e now) ids e now :=
  rfl

/-- One push to a session with spare capacity appends the event to every
session object carrying that identity and touches nothing else. -/
theorem pushToSessionId_append (st : LocalEventDB) (sid : Nat) (e : Event) (now : Nat)
    (hroom : ∀ t ∈ st.sessions, t.id = sid → t.events.length < st.bufferSize)
    (hdet : ∀ t ∈ st.detached, t.id ≠ sid) :
    pushToSessionId st sid e now =
      { st with
        sessions := st.sessions.map
            (fun t => if t.id = sid then { t with events := t.events ++ [e] } else t) } := by
  unfold pushToSessionId mapSession
  simp only [LocalEventDB.mk.injEq, and_true, true_and]
  constructor
  · apply List.map_congr_left
    intro t ht
    by_cases h : t.id = sid
    · simp [h, pushEventSession, hroom t ht h]
    · simp [h]
  · have : ∀ t ∈ st.detached, (if t.id == sid then pushEventSession st t e now else t) = t := by
      intro t ht
      simp [hdet t ht]
    rw [List.map_congr_left this]
    simp

/-- Pushing one event to a `Nodup` list of registered session identities,
all of which have spare outbox capacity, appends the event to exactly
those sessions. -/
theorem foldPush_spec (e : Event) (now : Nat) :
    ∀ (ids : List Nat) (st : LocalEventDB),
      ids.Nodup →
      (∀ t ∈ st.sessions, t.id ∈ ids → t.events.length < st.bufferSize) →
      (∀ t ∈ st.detached, t.id ∉ ids) →
      foldPush st ids e now =
        { st with
          sessions := st.sessions.map
              (fun t => if t.id ∈ ids then { t with events := t.events ++ [e] } else t) } := by
  intro ids
  induction ids with
  | nil =>
    intro st _ _ _
    simp [foldPush]
  | cons sid rest ih =>
    intro st hnd hroom hdet
    have hnd' := List.nodup_cons.mp hnd
    rw [foldPush_cons]
    rw [pushToSessionId_append st sid e now
      (fun t ht h => hroom t ht (by simp [h]))
      (fun t ht => by
        intro h
        exact hdet t ht (by simp [h]))]
    rw [ih _ hnd'.2 ?_ ?_]
    · simp only [List.map_map]
      congr 1
      apply List.map_congr_left
      intro t ht
      by_cases h1 : t.id = sid
      · have hs : sid ∉ rest := hnd'.1
        simp [Function.comp, h1, hs]
      · by_cases h2 : t.id ∈ rest
        · simp [Function.comp, h1, h2]
        · simp [Function.comp, h1, h2]
    · intro t ht hmem
      simp only [List.mem_map] at ht
      obtain ⟨u, hu, rfl⟩ := ht
      by_cases h : u.id = sid
      · exact absurd (by rw [if_pos h] at hmem; simpa [h] using hmem) hnd'.1
      · rw [if_neg h] at hmem ⊢
        exact hroom u hu (List.mem_cons.mpr (Or.inr hmem))
    · intro t ht
      exact fun hmem => hdet t ht (List.mem_cons.mpr (Or.inr hmem))

/-- The registered-session identities selected by a predicate form a
`Nodup` list whenever the registry's identities are `Nodup`. -/
theorem filter_ids_nodup (st : LocalEventDB) (p : LocalDBSession → Bool)
    (hnd : (st.sessions.map (fun s => s.id)).Nodup) :
    ((st.sessions.filter p).map (fun s => s.id)).Nodup :=
  hnd.sublist ((List.filter_sublist st.sessions).map _)

/-- Under `Nodup` identities, a registered session's identity is among the
selected ones iff the session satisfies the predicate. -/
theorem mem_filter_ids_iff (st : LocalEventDB) (p : LocalDBSession → Bool)
    (hnd : (st.sessions.map (fun s => s.id)).Nodup)
    (t : LocalDBSession) (ht : t ∈ st.sessions) :
    t.id ∈ (st.sessions.filter p).map (fun s => s.id) ↔ p t = true := by
  constructor
  · intro h
    obtain ⟨u, hu, hid⟩ := List.mem_map.mp h
    have hu' := List.mem_filter.mp hu
    have heq : u = t := List.inj_on_of_nodup_map hnd hu'.1 ht hid
    rw [← heq]
    exact hu'.2
  · intro hp
    exact List.mem_map.mpr ⟨t, List.mem_filter.mpr ⟨ht, hp⟩, rfl⟩

/-- The common fanout pattern: pushing an event to every registered
session selected by a predicate appends the event to exactly those
sessions, provided they all have spare outbox capacity (and identities
are unambiguous). -/
theorem foldPush_filter_spec (st : LocalEventDB) (p : LocalDBSession → Bool) (e : Event)
    (now : Nat)
    (hnd : (st.sessions.map (fun s => s.id)).Nodup)
    (hdet : ∀ t ∈ st.detached, ∀ u ∈ st.sessions, t.id ≠ u.id)
    (hroom : ∀ t ∈ st.sessions, p t = true → t.events.length < st.bufferSize) :
    foldPush st ((st.sessions.filter p).map (fun s => s.id)) e now =
      { st with
        sessions := st.sessions.map
            (fun t => if p t then { t with events := t.events ++ [e] } else t) } := by
  rw [foldPush_spec e now _ st (filter_ids_nodup st p hnd) ?_ ?_]
  · congr 1
    apply List.map_congr_left
    intro t ht
    by_cases hp : p t = true
    · rw [if_pos ((mem_filter_ids_iff st p hnd t ht).mpr hp), if_pos hp]
    · rw [if_neg (fun hmem => hp ((mem_filter_ids_iff st p hnd t ht).mp hmem)),
        if_neg hp]
  · intro t ht hmem
    exact hroom t ht ((mem_filter_ids_iff st p hnd t ht).mp hmem)
  · intro t ht hmem
    obtain ⟨u, hu, hid⟩ := List.mem_map.mp hmem
    exact hdet t ht u (List.mem_filter.mp hu).1 hid.symm

/-- `pushToUser` with room everywhere: appends exactly one copy of the
event to every registered session of the identity, and to nothing else. -/
theorem pushToUser_spec (st : LocalEventDB) (email : String) (e : Event) (now : Nat)
    (hnd : (st.sessions.map (fun s => s.id)).Nodup)
    (hdet : ∀ t ∈ st.detached, ∀ u ∈ st.sessions, t.id ≠ u.id)
    (hroom : ∀ t ∈ st.sessions, emailsEquivalent t.email email = true →
      t.events.length < st.bufferSize) :
    pushToUser st email e now =
      { st with
        sessions := st.sessions.map
            (fun t => if emailsEquivalent t.email email then
              { t with events := t.events ++ [e] } else t) } := by
  unfold pushToUser
  exact foldPush_filter_spec st _ e now hnd hdet hroom

/-- `broadcastNewStatus` with a readable store and room everywhere: every
registered session whose identity is a buddy of `email` receives exactly
one StatusChanged event carrying the new status; no other session receives
anything. -/
theorem broadcastNewStatus_spec (st : LocalEventDB) (email : String) (status : UserStatus)
    (now : Nat) (info : UserInfo)
    (hinfo : dbGetUserInfo st.db email = .ok info)
    (hnd : (st.sessions.map (fun s => s.id)).Nodup)
    (hdet : ∀ t ∈ st.detached, ∀ u ∈ st.sessions, t.id ≠ u.id)
    (hroom : ∀ t ∈ st.sessions, containsEmail info.buddies t.email = true →
      t.events.length < st.bufferSize) :
    broadcastNewStatus st email status now =
      { st with
        sessions := st.sessions.map
            (fun t => if containsEmail info.buddies t.email then
              { t with events := t.events ++ [{ type := .statusChanged, status := status }] }
              else t) } := by
  unfold broadcastNewStatus
  rw [hinfo]
  exact foldPush_filter_spec st _ _ now hnd hdet hroom

/-!  Status retrieval and the full-state snapshot.  -/

/-- `GetStatuses`, characterized: one status per registered email in
request order, or `ErrNoEmail` with no partial result. -/
theorem getStatuses_aligned (db : List UserInfo) (emails : List String) :
    dbGetStatuses db emails =
      if emails.all (fun e => (findUser db e).isSome) then
        Except.ok (emails.map (fun e =>
          ((findUser db e).map (fun u => u.latestStatus)).getD UserStatus.zeroVal))
      else Except.error errNoEmail := by
  induction emails with
  | nil => rfl
  | cons e rest ih =>
    cases h : findUser db e with
    | none => simp [dbGetStatuses, h]
    | some u =>
      by_cases hc : rest.all (fun e => (findUser db e).isSome)
      · simp [dbGetStatuses, h, ih, hc]
      · simp [dbGetStatuses, h, ih, hc]

/-- **C10** (confirmed): `GetStatuses` is all-or-nothing and positionally
aligned.  When every requested email is registered it returns exactly one
status per request, in request order, the i-th being the stored
`latestStatus` of the i-th email (the `getD` default is never reached in
that branch); when any requested email is unregistered it returns
`ErrNoEmail` and no partial result — the alignment the full-state
snapshot construction (`fullStateEvent`) relies on to pair each buddy
with its masked status. -/
theorem dbGetStatuses_spec (db : List UserInfo) (emails : List String) :
    dbGetStatuses db emails =
      if emails.all (fun e => (findUser db e).isSome) then
        Except.ok (emails.map (fun e =>
          ((findUser db e).map (fun u => u.latestStatus)).getD UserStatus.zeroVal))
      else Except.error errNoEmail :=
  getStatuses_aligned db emails

/-- `dbGetStatuses` in the fully-registered case, as an `ok` with the
aligned status list. -/
theorem dbGetStatuses_ok (db : List UserInfo) (emails : List String)
    (h : ∀ e ∈ emails, (findUser db e).isSome = true) :
    dbGetStatuses db emails = Except.ok (emails.map (fun e =>
      ((findUser db e).map (fun u => u.latestStatus)).getD UserStatus.zeroVal)) := by
  rw [getStatuses_aligned, if_pos (List.all_eq_true.mpr h)]

/-- If `dbGetStatuses` succeeds, every requested email was registered. -/
theorem dbGetStatuses_ok_found (db : List UserInfo) :
    ∀ (emails : List String) (l : List UserStatus),
      dbGetStatuses db emails = Except.ok l →
      ∀ e ∈ emails, (findUser db e).isSome = true := by
  intro emails
  induction emails with
  | nil => intro l _ e he; cases he
  | cons e0 rest ih =>
    intro l hok e he
    rcases List.mem_cons.mp he with rfl | hmem
    · cases h : findUser db e with
      | none => rw [dbGetStatuses, h] at hok; cases hok
      | some u => simp [h]
    · cases h : findUser db e0 with
      | none => rw [dbGetStatuses, h] at hok; cases hok
      | some u =>
        rw [dbGetStatuses, h] at hok
        cases hrest : dbGetStatuses db rest with
        | error msg => rw [hrest] at hok; cases hok
        | ok l' => exact ih l' hrest e hmem

/-- Masking a status list that is computed pointwise from the buddy list
masks each buddy's computed status. -/
theorem maskStatuses_map (st : LocalEventDB) (now : Nat) (f : String → UserStatus) :
    ∀ bs : List String,
      maskStatuses st bs (bs.map f) now = bs.map (fun b => maskUserStatus st b (f b) now) := by
  intro bs
  induction bs with
  | nil => rfl
  | cons b rest ih =>
    simp only [maskStatuses, List.map_cons, List.zip_cons_cons] at *
    rw [ih]

/-- Shape of a successful full-state snapshot: it is a FullState event
whose user info is the caller's record and whose buddy statuses are the
positionally masked stored statuses of the record's buddies. -/
theorem fullStateEvent_ok (st : LocalEventDB) (email : String) (now : Nat) (ev : Event)
    (h : fullStateEvent st email now = .ok ev) :
    ∃ u, dbGetUserInfo st.db email = .ok u ∧
      ev.type = .fullState ∧
      ev.userInfo = some u ∧
      (∀ e ∈ u.buddies, (findUser st.db e).isSome = true) ∧
      ev.buddyStatuses = u.buddies.map (fun b =>
        maskUserStatus st b
          (((findUser st.db b).map (fun x => x.latestStatus)).getD UserStatus.zeroVal) now) := by
  unfold fullStateEvent at h
  cases hu : dbGetUserInfo st.db email with
  | error msg => rw [hu] at h; cases h
  | ok u =>
    rw [hu] at h
    dsimp only at h
    cases hs : dbGetStatuses st.db u.buddies with
    | error msg => rw [hs] at h; cases h
    | ok statuses =>
      rw [hs] at h
      dsimp only at h
      injection h with h
      subst h
      have hfound := dbGetStatuses_ok_found st.db u.buddies statuses hs
      refine ⟨u, rfl, rfl, rfl, hfound, ?_⟩
      have hstat : statuses = u.buddies.map (fun e =>
          ((findUser st.db e).map (fun x => x.latestStatus)).getD UserStatus.zeroVal) := by
        have h2 := dbGetStatuses_ok st.db u.buddies hfound
        rw [h2] at hs
        injection hs with hs
        exact hs.symm
      subst hstat
      exact maskStatuses_map st now _ u.buddies

/-!  Presence masking (C9).  -/

/-- The append-if-selected map step preserves a session's identity. -/
theorem pushFun_id (e : Event) (p : LocalDBSession → Bool) (t : LocalDBSession) :
    (if p t then { t with events := t.events ++ [e] } else t).id = t.id := by
  by_cases h : p t <;> simp [h]

/-- The append-if-selected map step preserves a session's email. -/
theorem pushFun_email (e : Event) (p : LocalDBSession → Bool) (t : LocalDBSession) :
    (if p t then { t with events := t.events ++ [e] } else t).email = t.email := by
  by_cases h : p t <;> simp [h]

/-- `GetStatuses` on the two-email list used by `AcceptRequest`. -/
theorem dbGetStatuses_pair (db : List UserInfo) (a b : String) (ua ub : UserInfo)
    (ha : findUser db a = some ua) (hb : findUser db b = some ub) :
    dbGetStatuses db [a, b] = .ok [ua.latestStatus, ub.latestStatus] := by
  simp [dbGetStatuses, ha, hb]

/-- Successful `AcceptRequest` on a session: the store mutation is applied
and the two notification events carry the *masked* stored statuses, masked
against the registry as it was at the moment of the call. -/
theorem sessionAcceptRequest_shape (st : LocalEventDB) (sid : Nat) (other : String)
    (now : Nat) (s : LocalDBSession) (uSelf uOther : UserInfo)
    (hs : getSession st sid = some s)
    (hclosed : s.closed = false) (hdiscon : s.intentionalDiscon = false)
    (hself : findUser st.db s.email = some uSelf)
    (hother : findUser st.db other = some uOther)
    (hok : (sessionAcceptRequest st sid other now).1 = none) :
    sessionAcceptRequest st sid other now =
      (none,
       pushToUser
         (pushToUser { st with db := (dbAcceptRequest st.db s.email other).2 }
           other
           { type := .requestAccepted, email := s.email
             status := maskUserStatus st s.email uSelf.latestStatus now } now)
         s.email
         { type := .acceptSent, email := other
           status := maskUserStatus st other uOther.latestStatus now } now) := by
  unfold sessionAcceptRequest genericOperation at hok ⊢
  rw [hs] at hok ⊢
  simp only [hclosed, hdiscon, Bool.false_eq_true, if_false] at hok ⊢
  rw [dbGetStatuses_pair st.db s.email other uSelf uOther hself hother] at hok ⊢
  cases hacc : dbAcceptRequest st.db s.email other with
  | mk oerr db' =>
    cases oerr with
    | some e => rw [hacc] at hok; simp at hok
    | none => rfl

/-- **C9** (confirmed): the presence-masking rule.  (1) For an identity
with no live session, every masked status has `Offline` availability
regardless of the stored value; (2) for an identity with a live session
the stored status is delivered unchanged; (3) every buddy status in a
FullState snapshot is exactly the mask of that buddy's stored
`latestStatus`; (4) a successful `AcceptRequest` pushes payloads whose
statuses are masks (at call time) of the two stored `latestStatus`
values — so both the snapshot and the Accept payloads obey (1)/(2). -/
theorem presence_masking_rule (st : LocalEventDB) (sid : Nat) (other : String)
    (now : Nat) (s : LocalDBSession) (uSelf uOther : UserInfo)
    (hs : getSession st sid = some s)
    (hclosed : s.closed = false) (hdiscon : s.intentionalDiscon = false)
    (hself : findUser st.db s.email = some uSelf)
    (hother : findUser st.db other = some uOther)
    (hok : (sessionAcceptRequest st sid other now).1 = none) :
    (∀ x stat, userOnline st x = false →
      (maskUserStatus st x stat now).availability = .offline) ∧
    (∀ x stat, userOnline st x = true → maskUserStatus st x stat now = stat) ∧
    (∀ em ev u i b bu,
      fullStateEvent st em now = .ok ev →
      dbGetUserInfo st.db em = .ok u →
      u.buddies.get? i = some b →
      findUser st.db b = some bu →
      ev.buddyStatuses.get? i = some (maskUserStatus st b bu.latestStatus now)) ∧
    (sessionAcceptRequest st sid other now).2 =
      pushToUser
        (pushToUser { st with db := (dbAcceptRequest st.db s.email other).2 }
          other
          { type := .requestAccepted, email := s.email
            status := maskUserStatus st s.email uSelf.latestStatus now } now)
        s.email
        { type := .acceptSent, email := other
          status := maskUserStatus st other uOther.latestStatus now } now := by
  refine ⟨?_, ?_, ?_, ?_⟩
  · intro x stat hoff
    simp [maskUserStatus, hoff]
  · intro x stat hon
    simp [maskUserStatus, hon]
  · intro em ev u i b bu hev hu hget hfind
    obtain ⟨u', hu', _, hui, _, hstat⟩ := fullStateEvent_ok st em now ev hev
    rw [hu] at hu'
    injection hu' with hu'
    subst hu'
    rw [hstat, List.get?_map, hget]
    simp [hfind]
  · rw [sessionAcceptRequest_shape st sid other now s uSelf uOther hs hclosed hdiscon
      hself hother hok]

/-- Session of identity `b@x` used in the concrete masking scenario. -/
def c9Session : LocalDBSession := { id := 0, email := "b@x", events := [] }

/-- `b@x`, holding an incoming request from `a@x`. -/
def c9USelf : UserInfo := { mkUser "b@x" "pw" with incomingRequests := ["a@x"] }

/-- `a@x`, holding an outgoing request to `b@x`. -/
def c9UOther : UserInfo := { mkUser "a@x" "pw" with outgoingRequests := ["b@x"] }

/-- Registry for the concrete masking scenario: `b@x` is online (one live
session), `a@x` is offline. -/
def c9State : LocalEventDB :=
  { sessions := [c9Session], detached := [], db := [c9UOther, c9USelf]
    bufferSize := 10, nextId := 1 }

/-- Witness for `presence_masking_rule`: `b@x` (online) accepts the pending
request of `a@x` (offline) at time 5. -/
theorem presence_masking_rule_witness :
    getSession c9State 0 = some c9Session ∧
    c9Session.closed = false ∧
    c9Session.intentionalDiscon = false ∧
    findUser c9State.db c9Session.email = some c9USelf ∧
    findUser c9State.db "a@x" = some c9UOther ∧
    (sessionAcceptRequest c9State 0 "a@x" 5).1 = none ∧
    ((∀ x stat, userOnline c9State x = false →
        (maskUserStatus c9State x stat 5).availability = .offline) ∧
      (∀ x stat, userOnline c9State x = true → maskUserStatus c9State x stat 5 = stat) ∧
      (∀ em ev u i b bu,
        fullStateEvent c9State em 5 = .ok ev →
        dbGetUserInfo c9State.db em = .ok u →
        u.buddies.get? i = some b →
        findUser c9State.db b = some bu →
        ev.buddyStatuses.get? i = some (maskUserStatus c9State b bu.latestStatus 5)) ∧
      (sessionAcceptRequest c9State 0 "a@x" 5).2 =
        pushToUser
          (pushToUser
            { c9State with db := (dbAcceptRequest c9State.db c9Session.email "a@x").2 }
            "a@x"
            { type := .requestAccepted, email := c9Session.email
              status := maskUserStatus c9State c9Session.email c9USelf.latestStatus 5 } 5)
          c9Session.email
          { type := .acceptSent, email := "a@x"
            status := maskUserStatus c9State "a@x" c9UOther.latestStatus 5 } 5) :=
  ⟨by decide, rfl, rfl, by decide, by decide, by decide,
   presence_masking_rule c9State 0 "a@x" 5 c9Session c9USelf c9UOther
     (by decide) rfl rfl (by decide) (by decide) (by decide)⟩

/-!  The buddy-relationship invariant (C5): the store operations
`SendRequest` / `AcceptRequest` / `DeleteBuddy` between a fixed pair of
registered users A and B, starting from no relationship.  -/

/-- The four relationship configurations between A and B that the store
operations can reach. -/
inductive RelState where
  | noRel
  | reqAB
  | reqBA
  | buddiesAB
deriving DecidableEq, Repr

/-- Overwrite a record's three relationship lists. -/
def setRel (u : UserInfo) (bud inc outR : List String) : UserInfo :=
  { u with buddies := bud, incomingRequests := inc, outgoingRequests := outR }

/-- The two-user store corresponding to each relationship configuration
(A's record first).  `noRel` is the state of two freshly added users. -/
def relDB (uA uB : UserInfo) : RelState → List UserInfo
  | .noRel => [setRel uA [] [] [], setRel uB [] [] []]
  | .reqAB => [setRel uA [] [] [uB.email], setRel uB [] [uA.email] []]
  | .reqBA => [setRel uA [] [uB.email] [], setRel uB [] [] [uA.email]]
  | .buddiesAB => [setRel uA [uB.email] [] [], setRel uB [uA.email] [] []]

/-- The six store operations between A and B.  `acceptAB` is A accepting
B's request (`AcceptRequest(A, B)`), and so on. -/
inductive PairOp where
  | sendAB
  | sendBA
  | acceptAB
  | acceptBA
  | deleteAB
  | deleteBA
deriving DecidableEq, Repr

/-- Apply one operation to the store; a failed operation leaves the store
unchanged (these three operations mutate nothing on their error paths). -/
def applyPairOp (A B : String) (db : List UserInfo) : PairOp → List UserInfo
  | .sendAB => (dbSendRequest db A B).2
  | .sendBA => (dbSendRequest db B A).2
  | .acceptAB => (dbAcceptRequest db A B).2
  | .acceptBA => (dbAcceptRequest db B A).2
  | .deleteAB => (dbDeleteBuddy db A B).2
  | .deleteBA => (dbDeleteBuddy db B A).2

/-- Run a sequence of A-B operations left to right. -/
def runPairOps (A B : String) (db : List UserInfo) : List PairOp → List UserInfo
  | [] => db
  | op :: rest => runPairOps A B (applyPairOp A B db op) rest

/-- The abstract transition relation the store operations implement on the
four configurations; operations invalid in a configuration are rejected
and leave it unchanged. -/
def relStep : RelState → PairOp → RelState
  | .noRel, .sendAB => .reqAB
  | .noRel, .sendBA => .reqBA
  | .reqAB, .acceptBA => .buddiesAB
  | .reqBA, .acceptAB => .buddiesAB
  | .reqAB, .deleteAB => .noRel
  | .reqAB, .deleteBA => .noRel
  | .reqBA, .deleteAB => .noRel
  | .reqBA, .deleteBA => .noRel
  | .buddiesAB, .deleteAB => .noRel
  | .buddiesAB, .deleteBA => .noRel
  | r, _ => r

/-- The claimed invariant between A and B, decidably: at most one of
{mutual buddies}, {A→B request}, {B→A request} holds, and outgoing entries
are mirrored by the matching incoming entries (and buddy entries by buddy
entries). -/
def pairRelInvariant (db : List UserInfo) (A B : String) : Bool :=
  match findUser db A, findUser db B with
  | some ua, some ub =>
    let bothBuddies := containsEmail ua.buddies B && containsEmail ub.buddies A
    let outAB := containsEmail ua.outgoingRequests B && containsEmail ub.incomingRequests A
    let outBA := containsEmail ub.outgoingRequests A && containsEmail ua.incomingRequests B
    (!(bothBuddies && outAB)) && (!(bothBuddies && outBA)) && (!(outAB && outBA)) &&
    (containsEmail ua.outgoingRequests B == containsEmail ub.incomingRequests A) &&
    (containsEmail ub.outgoingRequests A == containsEmail ua.incomingRequests B) &&
    (containsEmail ua.buddies B == containsEmail ub.buddies A)
  | _, _ => false

/-- Each store operation maps a reachable two-user configuration to the
configuration prescribed by `relStep` (soundness of the abstraction). -/
theorem relDB_step (uA uB : UserInfo) (h : (uA.email == uB.email) = false)
    (r : RelState) (op : PairOp) :
    applyPairOp uA.email uB.email (relDB uA uB r) op = relDB uA uB (relStep r op) := by
  have h' : (uB.email == uA.email) = false := by
    rw [beq_eq_false_iff_ne] at h ⊢
    exact fun hh => h hh.symm
  cases r <;> cases op <;>
    simp [applyPairOp, relDB, relStep, dbSendRequest, dbAcceptRequest, dbDeleteBuddy,
      findUser, setRel, emailsEquivalent, containsEmail, removeEmail, updateFirstUser,
      h, h']

/-- Every reachable configuration satisfies the invariant. -/
theorem relDB_invariant (uA uB : UserInfo) (h : (uA.email == uB.email) = false)
    (r : RelState) :
    pairRelInvariant (relDB uA uB r) uA.email uB.email = true := by
  have h' : (uB.email == uA.email) = false := by
    rw [beq_eq_false_iff_ne] at h ⊢
    exact fun hh => h hh.symm
  cases r <;>
    simp [pairRelInvariant, relDB, setRel, findUser, emailsEquivalent, containsEmail,
      h, h']

/-- Running any operation sequence from a reachable configuration lands in
the configuration computed by folding `relStep`. -/
theorem runPairOps_relDB (uA uB : UserInfo) (h : (uA.email == uB.email) = false) :
    ∀ (ops : List PairOp) (r : RelState),
      runPairOps uA.email uB.email (relDB uA uB r) ops =
        relDB uA uB (ops.foldl relStep r) := by
  intro ops
  induction ops with
  | nil => intro r; rfl
  | cons op rest ih =>
    intro r
    show runPairOps uA.email uB.email
      (applyPairOp uA.email uB.email (relDB uA uB r) op) rest = _
    rw [relDB_step uA uB h r op, ih]
    rfl

/-- **C5** (confirmed): for every pair of registered users with distinct
emails, starting from the no-relationship state, after any sequence of
`SendRequest` / `AcceptRequest` / `DeleteBuddy` operations between them
the invariant holds: at most one of {mutual buddies}, {A→B request
pending}, {B→A request pending}, and outgoing entries are exactly
mirrored by incoming entries.  Since the sequence is arbitrary, the
invariant holds at every intermediate time as well. -/
theorem buddy_relationship_invariant (uA uB : UserInfo)
    (h : uA.email ≠ uB.email) (ops : List PairOp) :
    pairRelInvariant
      (runPairOps uA.email uB.email (relDB uA uB RelState.noRel) ops)
      uA.email uB.email = true := by
  have hb : (uA.email == uB.email) = false := beq_eq_false_iff_ne.mpr h
  rw [runPairOps_relDB uA uB hb ops RelState.noRel]
  exact relDB_invariant uA uB hb _

/-- Witness for `buddy_relationship_invariant`: `a@x` and `b@x` running
send, accept, delete, then send again in the other direction. -/
theorem buddy_relationship_invariant_witness :
    (mkUser "a@x" "p").email ≠ (mkUser "b@x" "q").email ∧
    pairRelInvariant
      (runPairOps (mkUser "a@x" "p").email (mkUser "b@x" "q").email
        (relDB (mkUser "a@x" "p") (mkUser "b@x" "q") RelState.noRel)
        [PairOp.sendAB, PairOp.acceptBA, PairOp.deleteAB, PairOp.sendBA])
      (mkUser "a@x" "p").email (mkUser "b@x" "q").email = true :=
  ⟨by decide,
   buddy_relationship_invariant (mkUser "a@x" "p") (mkUser "b@x" "q") (by decide)
     [PairOp.sendAB, PairOp.acceptBA, PairOp.deleteAB, PairOp.sendBA]⟩

/-!  Outbox overflow collapse (C6).  -/

/-- A registry with one session (id 0) of identity `em`, outbox capacity
`K` and current outbox content `buf`. -/
def singleSessionDB (db : List UserInfo) (K : Nat) (em : String) (buf : List Event) :
    LocalEventDB :=
  { sessions := [{ id := 0, email := em, events := buf }]
    detached := [], db := db, bufferSize := K, nextId := 1 }

/-- Presence in the single-session registry does not depend on the outbox
content. -/
theorem singleSession_userOnline (db : List UserInfo) (K : Nat) (em : String)
    (buf : List Event) (x : String) :
    userOnline (singleSessionDB db K em buf) x = emailsEquivalent em x := by
  simp [userOnline, singleSessionDB]

/-- Masked statuses in the single-session registry do not depend on the
outbox content. -/
theorem singleSession_maskStatuses (db : List UserInfo) (K : Nat) (em : String)
    (buf : List Event) (bs : List String) (ss : List UserStatus) (now : Nat) :
    maskStatuses (singleSessionDB db K em buf) bs ss now =
      maskStatuses (singleSessionDB db K em []) bs ss now := by
  unfold maskStatuses
  apply List.map_congr_left
  intro p _
  simp [maskUserStatus, singleSession_userOnline]

/-- The full-state snapshot in the single-session registry does not depend
on the outbox content. -/
theorem singleSession_fullStateEvent (db : List UserInfo) (K : Nat) (em : String)
    (buf : List Event) (x : String) (now : Nat) :
    fullStateEvent (singleSessionDB db K em buf) x now =
      fullStateEvent (singleSessionDB db K em []) x now := by
  unfold fullStateEvent
  have hdb : (singleSessionDB db K em buf).db = db := rfl
  have hdb2 : (singleSessionDB db K em []).db = db := rfl
  rw [hdb, hdb2]
  cases dbGetUserInfo db x with
  | error msg => rfl
  | ok u =>
    dsimp only
    cases dbGetStatuses db u.buddies with
    | error msg => rfl
    | ok statuses =>
      dsimp only
      rw [singleSession_maskStatuses]

/-- The collapse event in the single-session registry does not depend on
the outbox content. -/
theorem singleSession_collapse (db : List UserInfo) (K : Nat) (em : String)
    (buf : List Event) (x : String) (now : Nat) :
    collapseEvent (singleSessionDB db K em buf) x now =
      collapseEvent (singleSessionDB db K em []) x now := by
  unfold collapseEvent
  rw [singleSession_fullStateEvent]

/-- One push in the single-session registry: append while below capacity,
otherwise collapse to the fresh snapshot (or SyncError). -/
theorem singleSession_push (db : List UserInfo) (K : Nat) (em : String)
    (buf : List Event) (e : Event) (now : Nat) :
    pushToSessionId (singleSessionDB db K em buf) 0 e now =
      singleSessionDB db K em
        (if buf.length < K then buf ++ [e]
         else [collapseEvent (singleSessionDB db K em []) em now]) := by
  rw [← singleSession_collapse db K em buf em now]
  unfold pushToSessionId mapSession pushEventSession clearAndPush
  by_cases h : buf.length < K
  · simp [singleSessionDB, h]
  · simp [singleSessionDB, h]

theorem pushMany_cons (st : LocalEventDB) (sid : Nat) (e : Event) (es : List Event)
    (now : Nat) :
    pushMany st sid (e :: es) now = pushMany (pushToSessionId st sid e now) sid es now :=
  rfl

/-- While the pushes fit in the remaining capacity, they simply queue up in
order. -/
theorem pushMany_fill (db : List UserInfo) (K : Nat) (em : String) (now : Nat) :
    ∀ (ds : List Event) (buf : List Event), buf.length + ds.length ≤ K →
      pushMany (singleSessionDB db K em buf) 0 ds now = singleSessionDB db K em (buf ++ ds) := by
  intro ds
  induction ds with
  | nil =>
    intro buf _
    simp [pushMany, foldPush]
  | cons d rest ih =>
    intro buf hlen
    simp only [List.length_cons] at hlen
    have hroom : buf.length < K := by omega
    rw [pushMany_cons, singleSession_push, if_pos hroom,
      ih (buf ++ [d]) (by simp only [List.length_append, List.length_cons,
        List.length_nil]; omega)]
    simp

/-- **C6, amended** (the behaviour the code implements): from an empty
outbox of capacity K ≥ 1, after K queued deltas the next push — the first
one to find the outbox full — discards everything queued and leaves the
outbox holding exactly one event, which is a FullState freshly read from
the store (or SyncError when that read fails).  (The original claim's
"after any N > K pushes" fails: pushes after a collapse append new deltas
again, see the counterexample.) -/
theorem outbox_overflow_collapse (db : List UserInfo) (K : Nat) (em : String) (now : Nat)
    (ds : List Event) (e : Event) (hK : 1 ≤ K) (hlen : ds.length = K) :
    pushMany (singleSessionDB db K em []) 0 (ds ++ [e]) now =
      singleSessionDB db K em [collapseEvent (singleSessionDB db K em []) em now] ∧
    ((collapseEvent (singleSessionDB db K em []) em now).type = EventType.fullState ∨
      (collapseEvent (singleSessionDB db K em []) em now).type = EventType.syncError) ∧
    (∀ ev, fullStateEvent (singleSessionDB db K em []) em now = .ok ev →
      collapseEvent (singleSessionDB db K em []) em now = ev) := by
  refine ⟨?_, ?_, ?_⟩
  · have hfold : pushMany (singleSessionDB db K em []) 0 (ds ++ [e]) now =
        pushToSessionId (pushMany (singleSessionDB db K em []) 0 ds now) 0 e now := by
      unfold pushMany
      rw [List.foldl_append]
      rfl
    rw [hfold, pushMany_fill db K em now ds [] (by simp [hlen]),
      singleSession_push]
    rw [if_neg (by simp [hlen])]
  · unfold collapseEvent
    cases hev : fullStateEvent (singleSessionDB db K em []) em now with
    | error msg => right; rfl
    | ok ev =>
      left
      obtain ⟨u, _, htype, _⟩ := fullStateEvent_ok _ _ _ _ hev
      exact htype
  · intro ev hev
    unfold collapseEvent
    rw [hev]

/-- Witness for `outbox_overflow_collapse`: capacity 2, two queued
StatusChanged deltas, then the overflowing third push. -/
theorem outbox_overflow_collapse_witness :
    1 ≤ 2 ∧ (List.replicate 2 ({ type := .statusChanged } : Event)).length = 2 ∧
    (pushMany (singleSessionDB [mkUser "a@x" "pw"] 2 "a@x" []) 0
        (List.replicate 2 ({ type := .statusChanged } : Event) ++
          [({ type := .statusChanged } : Event)]) 7 =
      singleSessionDB [mkUser "a@x" "pw"] 2 "a@x"
        [collapseEvent (singleSessionDB [mkUser "a@x" "pw"] 2 "a@x" []) "a@x" 7] ∧
    ((collapseEvent (singleSessionDB [mkUser "a@x" "pw"] 2 "a@x" []) "a@x" 7).type =
        EventType.fullState ∨
      (collapseEvent (singleSessionDB [mkUser "a@x" "pw"] 2 "a@x" []) "a@x" 7).type =
        EventType.syncError) ∧
    (∀ ev, fullStateEvent (singleSessionDB [mkUser "a@x" "pw"] 2 "a@x" []) "a@x" 7 = .ok ev →
      collapseEvent (singleSessionDB [mkUser "a@x" "pw"] 2 "a@x" []) "a@x" 7 = ev)) :=
  ⟨by decide, by decide,
   outbox_overflow_collapse [mkUser "a@x" "pw"] 2 "a@x" 7
     (List.replicate 2 ({ type := .statusChanged } : Event))
     ({ type := .statusChanged } : Event) (by decide) (by decide)⟩

/-!  Force-eviction semantics (C7).  -/

/-- What `disconnectOthers` does to each evicted session object: mark it
intentionally disconnected and force-collapse its outbox to the single
IntentionalDisconnect event. -/
def markEvicted (s : LocalDBSession) : LocalDBSession :=
  clearAndPush { type := .intentionalDisconnect } { s with intentionalDiscon := true }

/-- The eviction loop keeps exactly the sessions that are the caller or of
another identity, and evicts (marked) exactly the caller's other
sessions, in order. -/
theorem evictLoop_eq (selfId : Nat) (email : String) :
    ∀ l : List LocalDBSession,
      evictLoop selfId email l =
        (l.filter (fun s => !(s.id != selfId && emailsEquivalent s.email email)),
         (l.filter (fun s => s.id != selfId && emailsEquivalent s.email email)).map
           markEvicted) := by
  intro l
  induction l with
  | nil => rfl
  | cons s rest ih =>
    cases hc : (s.id != selfId && emailsEquivalent s.email email) with
    | true =>
      have hkeep : (!(s.id != selfId && emailsEquivalent s.email email)) = false := by
        rw [hc]; rfl
      rw [@List.filter_cons_of_neg _
          (fun s => !(s.id != selfId && emailsEquivalent s.email email)) s rest
          (by simp [hkeep]),
        @List.filter_cons_of_pos _
          (fun s => s.id != selfId && emailsEquivalent s.email email) s rest hc]
      simp only [evictLoop, hc, if_true, ih, List.map_cons]
      rfl
    | false =>
      have hkeep : (!(s.id != selfId && emailsEquivalent s.email email)) = true := by
        rw [hc]; rfl
      rw [@List.filter_cons_of_pos _
          (fun s => !(s.id != selfId && emailsEquivalent s.email email)) s rest hkeep,
        @List.filter_cons_of_neg _
          (fun s => s.id != selfId && emailsEquivalent s.email email) s rest
          (by simp [hc])]
      simp only [evictLoop, hc, if_false, ih]
      simp

/-- A session found by identity has that identity. -/
theorem getSession_id (st : LocalEventDB) (sid : Nat) (s : LocalDBSession)
    (h : getSession st sid = some s) : s.id = sid := by
  unfold getSession at h
  cases h1 : st.sessions.find? (fun x => x.id == sid) with
  | some t =>
    rw [h1] at h
    injection h with h
    subst h
    simpa using List.find?_some h1
  | none =>
    rw [h1] at h
    simpa using List.find?_some h

/-- In a list of sessions with `Nodup` identities, `find?` by a member's
identity returns that member. -/
theorem find?_id_unique (t : LocalDBSession) :
    ∀ l : List LocalDBSession,
      (l.map (fun s => s.id)).Nodup → t ∈ l →
      l.find? (fun x => x.id == t.id) = some t := by
  intro l
  induction l with
  | nil => intro _ ht; cases ht
  | cons a rest ih =>
    intro hnd ht
    rw [List.map_cons] at hnd
    have h1 := (List.nodup_cons.mp hnd).1
    have h2 := (List.nodup_cons.mp hnd).2
    rcases List.mem_cons.mp ht with rfl | hmem
    · simp [List.find?_cons]
    · have ha : (a.id == t.id) = false := by
        rw [beq_eq_false_iff_ne]
        intro he
        exact h1 (he ▸ List.mem_map.mpr ⟨t, hmem, rfl⟩)
      rw [List.find?_cons, ha]
      exact ih h2 hmem

/-- The six mutating session operations of the `DBSession` interface. -/
inductive MutOp where
  | setPassword (oldPass newPass : String)
  | sendRequest (email : String)
  | acceptRequest (email : String)
  | deleteBuddy (email : String)
  | setStatus (status : UserStatus)
  | disconnectOthers
deriving DecidableEq, Repr

/-- Dispatch one mutating operation on a session. -/
def applyMutOp (st : LocalEventDB) (sid : Nat) (now : Nat) :
    MutOp → Option String × LocalEventDB
  | .setPassword o n => sessionSetPassword st sid o n
  | .sendRequest e => sessionSendRequest st sid e now
  | .acceptRequest e => sessionAcceptRequest st sid e now
  | .deleteBuddy e => sessionDeleteBuddy st sid e now
  | .setStatus s => sessionSetStatus st sid s now
  | .disconnectOthers => sessionDisconnectOthers st sid

/-- Run a sequence of mutating operations on the same session, collecting
the returned errors. -/
def runMutOps (st : LocalEventDB) (sid : Nat) (now : Nat) :
    List MutOp → List (Option String) × LocalEventDB
  | [] => ([], st)
  | op :: rest =>
    let r := applyMutOp st sid now op
    let rr := runMutOps r.2 sid now rest
    (r.1 :: rr.1, rr.2)

/-- On a force-evicted (and not self-closed) session, every mutating
operation fails with `ErrIntentionalDisconnect` and changes nothing. -/
theorem applyMutOp_evicted (st : LocalEventDB) (sid : Nat) (now : Nat)
    (t : LocalDBSession) (ht : getSession st sid = some t)
    (hd : t.intentionalDiscon = true) (hc : t.closed = false) (op : MutOp) :
    applyMutOp st sid now op = (some errIntentionalDisconnect, st) := by
  cases op <;>
    simp [applyMutOp, sessionSetPassword, sessionSendRequest, sessionAcceptRequest,
      sessionDeleteBuddy, sessionSetStatus, sessionDisconnectOthers, genericOperation,
      ht, hd, hc]

/-- On a force-evicted session, every sequence of mutating operations
returns only `ErrIntentionalDisconnect` and leaves the registry state
untouched. -/
theorem runMutOps_evicted (st : LocalEventDB) (sid : Nat) (now : Nat)
    (t : LocalDBSession) (ht : getSession st sid = some t)
    (hd : t.intentionalDiscon = true) (hc : t.closed = false) :
    ∀ ops : List MutOp,
      runMutOps st sid now ops =
        (ops.map (fun _ => some errIntentionalDisconnect), st) := by
  intro ops
  induction ops with
  | nil => rfl
  | cons op rest ih =>
    simp [runMutOps, applyMutOp_evicted st sid now t ht hd hc op, ih]

theorem markEvicted_id (s : LocalDBSession) : (markEvicted s).id = s.id := rfl

/-- A successful `DisconnectOthers` call reduces to the raw eviction of the
caller's other sessions. -/
theorem sessionDisconnectOthers_eq (st : LocalEventDB) (sid : Nat) (s : LocalDBSession)
    (hs : getSession st sid = some s)
    (hclosed : s.closed = false) (hdiscon : s.intentionalDiscon = false) :
    sessionDisconnectOthers st sid =
      (none,
       { st with
         sessions := st.sessions.filter
             (fun t => !(t.id != sid && emailsEquivalent t.email s.email))
         detached := st.detached ++
           (st.sessions.filter
               (fun t => t.id != sid && emailsEquivalent t.email s.email)).map
             markEvicted }) := by
  have hid := getSession_id st sid s hs
  unfold sessionDisconnectOthers genericOperation
  rw [hs]
  simp only [hclosed, hdiscon, Bool.false_eq_true, if_false]
  unfold disconnectOthersRaw
  rw [hid, evictLoop_eq]

/-- **C7** (confirmed): after a live session calls `DisconnectOthers`,
(1) the call reports no error; (2) no other session of the caller's
identity remains registered; (3) every other session of the identity is
marked intentionally disconnected, sits in the detached pool with its
outbox containing exactly the one IntentionalDisconnect event; and (4)
every subsequent sequence of mutating calls on such an evicted session
fails call-by-call with the distinguished `ErrIntentionalDisconnect`
error without changing any state. -/
theorem disconnectOthers_evicts (st : LocalEventDB) (sid : Nat) (s : LocalDBSession)
    (hs : getSession st sid = some s)
    (hclosed : s.closed = false) (hdiscon : s.intentionalDiscon = false)
    (hnd : ((st.sessions ++ st.detached).map (fun t => t.id)).Nodup)
    (hopen : ∀ t ∈ st.sessions, t.closed = false) :
    (sessionDisconnectOthers st sid).1 = none ∧
    (∀ t ∈ (sessionDisconnectOthers st sid).2.sessions,
      t.id = sid ∨ emailsEquivalent t.email s.email = false) ∧
    (∀ t ∈ st.sessions, t.id ≠ sid → emailsEquivalent t.email s.email = true →
      markEvicted t ∈ (sessionDisconnectOthers st sid).2.detached ∧
      (markEvicted t).events = [{ type := .intentionalDisconnect }] ∧
      (markEvicted t).intentionalDiscon = true ∧
      (∀ (now' : Nat) (ops : List MutOp),
        runMutOps (sessionDisconnectOthers st sid).2 t.id now' ops =
          (ops.map (fun _ => some errIntentionalDisconnect),
            (sessionDisconnectOthers st sid).2))) := by
  rw [sessionDisconnectOthers_eq st sid s hs hclosed hdiscon]
  rw [List.map_append] at hnd
  have hndS : (st.sessions.map (fun t => t.id)).Nodup :=
    ((List.nodup_append.mp hnd).1)
  have hdisj : (st.sessions.map (fun t => t.id)).Disjoint
      (st.detached.map (fun t => t.id)) :=
    ((List.nodup_append.mp hnd).2.2)
  refine ⟨rfl, ?_, ?_⟩
  · intro t ht
    have hkeep := (List.mem_filter.mp ht).2
    by_cases hb : t.id = sid
    · exact Or.inl hb
    · right
      cases hm : emailsEquivalent t.email s.email with
      | false => rfl
      | true =>
        exfalso
        have hbne : (t.id != sid) = true := bne_iff_ne.mpr hb
        rw [hbne, hm] at hkeep
        simp at hkeep
  · intro t ht hne hmail
    have hev : (t.id != sid && emailsEquivalent t.email s.email) = true := by
      rw [hmail, Bool.and_true, bne_iff_ne]
      exact hne
    have hmemEv : markEvicted t ∈
        (st.sessions.filter
          (fun x => x.id != sid && emailsEquivalent x.email s.email)).map markEvicted :=
      List.mem_map.mpr ⟨t, List.mem_filter.mpr ⟨ht, hev⟩, rfl⟩
    have hfsess : (st.sessions.filter
        (fun x => !(x.id != sid && emailsEquivalent x.email s.email))).find?
        (fun x => x.id == t.id) = none := by
      rw [List.find?_eq_none]
      intro x hx hbeq
      have hxmem := List.mem_of_mem_filter hx
      have hxkeep := (List.mem_filter.mp hx).2
      have hxid : x.id = t.id := by simpa using hbeq
      have hxt : x = t := List.inj_on_of_nodup_map hndS hxmem ht hxid
      rw [hxt, hev] at hxkeep
      simp at hxkeep
    have hfdet : st.detached.find? (fun x => x.id == t.id) = none := by
      rw [List.find?_eq_none]
      intro x hx hbeq
      have hxid : x.id = t.id := by simpa using hbeq
      apply hdisj (List.mem_map.mpr ⟨t, ht, rfl⟩)
      rw [← hxid]
      exact List.mem_map.mpr ⟨x, hx, rfl⟩
    have hndEv : (((st.sessions.filter
        (fun x => x.id != sid && emailsEquivalent x.email s.email)).map
          markEvicted).map (fun u => u.id)).Nodup := by
      rw [List.map_map]
      have hrw : ((fun u : LocalDBSession => u.id) ∘ markEvicted) =
          (fun u : LocalDBSession => u.id) := by
        funext u
        rfl
      rw [hrw]
      exact hndS.sublist ((List.filter_sublist st.sessions).map _)
    have hfind := find?_id_unique (markEvicted t) _ hndEv hmemEv
    rw [markEvicted_id] at hfind
    refine ⟨List.mem_append.mpr (Or.inr hmemEv), rfl, rfl, ?_⟩
    intro now' ops
    refine runMutOps_evicted _ t.id now' (markEvicted t) ?_ rfl (hopen t ht) ops
    unfold getSession
    dsimp only
    rw [hfsess, List.find?_append, hfdet]
    simpa using hfind

/-- Caller session for the concrete eviction scenario. -/
def c7Caller : LocalDBSession := { id := 0, email := "a@x", events := [] }

/-- Registry for the concrete eviction scenario: identity `a@x` with two
live sessions (0 and 1) and identity `b@x` with one (2). -/
def c7State : LocalEventDB :=
  { sessions := [c7Caller,
                 { id := 1, email := "a@x", events := [] },
                 { id := 2, email := "b@x", events := [] }]
    detached := [], db := [mkUser "a@x" "pw", mkUser "b@x" "pw"]
    bufferSize := 10, nextId := 3 }

/-- Witness for `disconnectOthers_evicts`: session 0 of `a@x` evicts its
sibling session 1; session 2 of `b@x` survives. -/
theorem disconnectOthers_evicts_witness :
    getSession c7State 0 = some c7Caller ∧
    c7Caller.closed = false ∧
    c7Caller.intentionalDiscon = false ∧
    ((c7State.sessions ++ c7State.detached).map (fun t => t.id)).Nodup ∧
    (∀ t ∈ c7State.sessions, t.closed = false) ∧
    ((sessionDisconnectOthers c7State 0).1 = none ∧
      (∀ t ∈ (sessionDisconnectOthers c7State 0).2.sessions,
        t.id = 0 ∨ emailsEquivalent t.email c7Caller.email = false) ∧
      (∀ t ∈ c7State.sessions, t.id ≠ 0 → emailsEquivalent t.email c7Caller.email = true →
        markEvicted t ∈ (sessionDisconnectOthers c7State 0).2.detached ∧
        (markEvicted t).events = [{ type := .intentionalDisconnect }] ∧
        (markEvicted t).intentionalDiscon = true ∧
        (∀ (now' : Nat) (ops : List MutOp),
          runMutOps (sessionDisconnectOthers c7State 0).2 t.id now' ops =
            (ops.map (fun _ => some errIntentionalDisconnect),
              (sessionDisconnectOthers c7State 0).2)))) :=
  ⟨by decide, rfl, rfl, by decide, by decide,
   disconnectOthers_evicts c7State 0 c7Caller (by decide) rfl rfl (by decide) (by decide)⟩

/-!  Close semantics (C8).  -/

/-- The Offline StatusChanged event broadcast when an identity's last
session closes. -/
def offlineStatusEvent (now : Nat) : Event :=
  { type := .statusChanged
    status := { availability := .offline, message := "", time := now, userMetadata := "" } }

theorem set_append_length (a : LocalDBSession) (l1 l2 : List LocalDBSession) :
    (l1 ++ l2).set l1.length a = l1 ++ l2.set 0 a := by
  rw [List.set_append]
  simp

/-- `essentials.UnorderedDelete` at the position of the distinguished
element removes exactly that element, up to reordering. -/
theorem unorderedDelete_decomp (pre post : List LocalDBSession) (x : LocalDBSession) :
    (unorderedDelete (pre ++ x :: post) pre.length).Perm (pre ++ post) := by
  have hne : (x :: post) ≠ [] := by simp
  unfold unorderedDelete
  rw [List.getLast?_append_cons, List.getLast?_eq_getLast _ hne]
  dsimp only
  rw [set_append_length, List.set_cons_zero, List.dropLast_append_cons]
  apply List.Perm.append_left pre
  cases post with
  | nil => simp
  | cons q qs =>
    rw [List.getLast_cons (by simp), List.dropLast_cons₂]
    have h1 : (((q :: qs).getLast (by simp)) :: (q :: qs).dropLast).Perm
        ((q :: qs).dropLast ++ [(q :: qs).getLast (by simp)]) :=
      (List.perm_append_singleton _ _).symm
    rw [List.dropLast_append_getLast (by simp)] at h1
    exact h1

/-- `findIdx?` over a decomposition whose prefix fails the identity test
finds the distinguished position. -/
theorem findIdx?_decomp (sid : Nat) (sN : LocalDBSession) (post : List LocalDBSession)
    (hN : (sN.id == sid) = true) :
    ∀ (pre : List LocalDBSession) (i : Nat), (∀ x ∈ pre, (x.id == sid) = false) →
      List.findIdx? (fun x => x.id == sid) (pre ++ sN :: post) i = some (i + pre.length) := by
  intro pre
  induction pre with
  | nil =>
    intro i _
    simp [List.findIdx?_cons, hN]
  | cons a rest ih =>
    intro i hpre
    rw [List.cons_append, List.findIdx?_cons, hpre a (by simp)]
    simp only [Bool.false_eq_true, if_false]
    rw [ih (i + 1) (fun x hx => hpre x (by simp [hx]))]
    congr 1
    simp only [List.length_cons]
    omega

/-- A normal `Close` (open, not force-evicted, registered session at the
position after `pre`) reaches the removal-then-maybe-broadcast branch with
the registry entry removed by unordered delete. -/
theorem sessionClose_normal_eq (st : LocalEventDB) (now : Nat) (sN : LocalDBSession)
    (pre post : List LocalDBSession)
    (hnd : ((st.sessions ++ st.detached).map (fun t => t.id)).Nodup)
    (hsess : st.sessions = pre ++ sN :: post)
    (hNc : sN.closed = false) (hNd : sN.intentionalDiscon = false) :
    sessionClose st sN.id now =
      (if userOnline
          { st with sessions := unorderedDelete st.sessions pre.length
                    detached := st.detached ++ [{ sN with closed := true }] } sN.email
       then (CloseResult.ok,
         { st with sessions := unorderedDelete st.sessions pre.length
                   detached := st.detached ++ [{ sN with closed := true }] })
       else (CloseResult.ok,
         broadcastNewStatus
           { st with sessions := unorderedDelete st.sessions pre.length
                     detached := st.detached ++ [{ sN with closed := true }] }
           sN.email
           { availability := .offline, message := "", time := now, userMetadata := "" }
           now)) := by
  rw [List.map_append] at hnd
  have hndS := (List.nodup_append.mp hnd).1
  have hmemN : sN ∈ st.sessions := by
    rw [hsess]
    exact List.mem_append.mpr (Or.inr (List.mem_cons_self _ _))
  have hfind : st.sessions.find? (fun x => x.id == sN.id) = some sN :=
    find?_id_unique sN _ hndS hmemN
  have hgs : getSession st sN.id = some sN := by
    unfold getSession
    rw [hfind]
  have hndS' := hndS
  rw [hsess, List.map_append, List.map_cons] at hndS'
  have hdisj2 := (List.nodup_append.mp hndS').2.2
  have hpre : ∀ x ∈ pre, (x.id == sN.id) = false := by
    intro x hx
    rw [beq_eq_false_iff_ne]
    intro he
    exact hdisj2 (List.mem_map.mpr ⟨x, hx, rfl⟩) (by rw [he]; exact List.mem_cons_self _ _)
  have hidx : st.sessions.findIdx? (fun x => x.id == sN.id) = some pre.length := by
    rw [hsess]
    have := findIdx?_decomp sN.id sN post (beq_self_eq_true sN.id) pre 0 hpre
    simpa using this
  unfold sessionClose
  rw [hgs]
  simp only [hNc, hNd, Bool.false_eq_true, if_false]
  rw [hidx]

/-- **C8** (confirmed): Close semantics.  (a) Closing a session already
force-evicted by `DisconnectOthers` reports success and only marks the
object closed: no registry entry is removed and no outbox anywhere
changes.  (b) A second `Close` on a session that already closed itself
returns the `ErrNotOpen` error and changes nothing.  (c) Closing the last
live session of an identity removes exactly that session from the
registry and appends exactly one Offline StatusChanged event to each
registered session whose identity is a buddy of the closer, and nothing
to any other session.  (d) Closing a session whose identity still has
another live session removes it and broadcasts nothing. -/
theorem close_semantics (st : LocalEventDB) (now : Nat)
    (sidE sidC : Nat) (sE sC sN sM : LocalDBSession)
    (preN postN preM postM : List LocalDBSession) (uN : UserInfo)
    (hnd : ((st.sessions ++ st.detached).map (fun t => t.id)).Nodup)
    (hE : getSession st sidE = some sE)
    (hEd : sE.intentionalDiscon = true) (hEc : sE.closed = false)
    (hC : getSession st sidC = some sC) (hCc : sC.closed = true)
    (hsessN : st.sessions = preN ++ sN :: postN)
    (hNc : sN.closed = false) (hNd : sN.intentionalDiscon = false)
    (hNinfo : findUser st.db sN.email = some uN)
    (hNlast : ∀ t ∈ st.sessions, t.id ≠ sN.id → emailsEquivalent t.email sN.email = false)
    (hroom : ∀ t ∈ st.sessions, t.events.length < st.bufferSize)
    (hsessM : st.sessions = preM ++ sM :: postM)
    (hMc : sM.closed = false) (hMd : sM.intentionalDiscon = false)
    (hMother : ∃ t ∈ st.sessions, t.id ≠ sM.id ∧ emailsEquivalent t.email sM.email = true) :
    (sessionClose st sidE now =
        (.ok, mapSession sidE (fun x => { x with closed := true }) st) ∧
      (mapSession sidE (fun x => { x with closed := true }) st).sessions.map
          (fun t => (t.id, t.events)) = st.sessions.map (fun t => (t.id, t.events)) ∧
      (mapSession sidE (fun x => { x with closed := true }) st).detached.map
          (fun t => (t.id, t.events)) = st.detached.map (fun t => (t.id, t.events))) ∧
    sessionClose st sidC now = (.errNotOpen, st) ∧
    ((sessionClose st sN.id now).1 = .ok ∧
      (sessionClose st sN.id now).2.sessions =
        (unorderedDelete st.sessions preN.length).map
          (fun t => if containsEmail uN.buddies t.email then
            { t with events := t.events ++ [offlineStatusEvent now] } else t) ∧
      (unorderedDelete st.sessions preN.length).Perm (preN ++ postN)) ∧
    ((sessionClose st sM.id now).1 = .ok ∧
      (sessionClose st sM.id now).2.sessions = unorderedDelete st.sessions preM.length ∧
      (unorderedDelete st.sessions preM.length).Perm (preM ++ postM)) := by
  have hndApp := hnd
  rw [List.map_append] at hndApp
  have hndS := (List.nodup_append.mp hndApp).1
  have hdisjSD := (List.nodup_append.mp hndApp).2.2
  -- facts for the last-session scenario
  have hPermN : (unorderedDelete st.sessions preN.length).Perm (preN ++ postN) := by
    rw [hsessN]
    exact unorderedDelete_decomp preN postN sN
  have hPermM : (unorderedDelete st.sessions preM.length).Perm (preM ++ postM) := by
    rw [hsessM]
    exact unorderedDelete_decomp preM postM sM
  have hmemN : sN ∈ st.sessions := by
    rw [hsessN]
    exact List.mem_append.mpr (Or.inr (List.mem_cons_self _ _))
  have hndN' := hndS
  rw [hsessN, List.map_append, List.map_cons] at hndN'
  have hdisjN := (List.nodup_append.mp hndN').2.2
  have hheadN := (List.nodup_cons.mp (List.nodup_append.mp hndN').2.1).1
  have hUDsub : ∀ u ∈ unorderedDelete st.sessions preN.length,
      u ∈ st.sessions ∧ u.id ≠ sN.id := by
    intro u hu
    have hu' : u ∈ preN ++ postN := hPermN.mem_iff.mp hu
    have hus : u ∈ st.sessions := by
      rw [hsessN]
      rcases List.mem_append.mp hu' with h | h
      · exact List.mem_append.mpr (Or.inl h)
      · exact List.mem_append.mpr (Or.inr (List.mem_cons_of_mem _ h))
    refine ⟨hus, ?_⟩
    intro he
    have hueq : u = sN := List.inj_on_of_nodup_map hndS hus hmemN he
    rw [hueq] at hu'
    rcases List.mem_append.mp hu' with h | h
    · exact hdisjN (List.mem_map.mpr ⟨sN, h, rfl⟩) (List.mem_cons_self _ _)
    · exact hheadN (List.mem_map.mpr ⟨sN, h, rfl⟩)
  refine ⟨?_, ?_, ?_, ?_⟩
  · -- (a) close of a force-evicted session
    constructor
    · unfold sessionClose
      rw [hE]
      simp [hEc, hEd]
    · constructor
      · unfold mapSession
        rw [List.map_map]
        apply List.map_congr_left
        intro t _
        by_cases h : t.id = sidE <;> simp [Function.comp, h]
      · unfold mapSession
        rw [List.map_map]
        apply List.map_congr_left
        intro t _
        by_cases h : t.id = sidE <;> simp [Function.comp, h]
  · -- (b) second close
    unfold sessionClose
    rw [hC]
    simp [hCc]
  · -- (c) last-session close broadcasts Offline to buddies
    rw [sessionClose_normal_eq st now sN preN postN hnd hsessN hNc hNd]
    have huon : userOnline
        { st with sessions := unorderedDelete st.sessions preN.length
                  detached := st.detached ++ [{ sN with closed := true }] } sN.email
        = false := by
      unfold userOnline
      rw [List.any_eq_false]
      intro x hx
      obtain ⟨hxs, hxid⟩ := hUDsub x hx
      rw [hNlast x hxs hxid]
      simp
    rw [huon]
    simp only [Bool.false_eq_true, if_false]
    have hinfo2 : dbGetUserInfo
        (LocalEventDB.db { st with
          sessions := unorderedDelete st.sessions preN.length
          detached := st.detached ++ [{ sN with closed := true }] }) sN.email
        = .ok uN := by
      unfold dbGetUserInfo
      rw [show (LocalEventDB.db { st with
          sessions := unorderedDelete st.sessions preN.length
          detached := st.detached ++ [{ sN with closed := true }] }) = st.db from rfl]
      rw [hNinfo]
    rw [broadcastNewStatus_spec _ sN.email _ now uN hinfo2 ?_ ?_ ?_]
    · refine ⟨?_, ?_, hPermN⟩ <;> trivial
    · -- Nodup identities after removal
      show ((unorderedDelete st.sessions preN.length).map (fun s => s.id)).Nodup
      rw [(hPermN.map (fun s => s.id)).nodup_iff]
      have hsub : (preN ++ postN).Sublist st.sessions := by
        rw [hsessN]
        exact (List.sublist_cons_self sN postN).append_left preN
      exact hndS.sublist (hsub.map _)
    · -- detached ids disjoint from registered ids
      intro t ht u hu
      obtain ⟨hus, huid⟩ := hUDsub u hu
      rcases List.mem_append.mp ht with h | h
      · intro he
        exact hdisjSD (List.mem_map.mpr ⟨u, hus, rfl⟩)
          (he ▸ List.mem_map.mpr ⟨t, h, rfl⟩)
      · rcases List.mem_cons.mp h with rfl | h2
        · intro he
          exact huid he.symm
        · cases h2
    · -- room in every buddy outbox
      intro t ht _
      exact hroom t (hUDsub t ht).1
  · -- (d) close with another session of the identity still live
    rw [sessionClose_normal_eq st now sM preM postM hnd hsessM hMc hMd]
    have huon : userOnline
        { st with sessions := unorderedDelete st.sessions preM.length
                  detached := st.detached ++ [{ sM with closed := true }] } sM.email
        = true := by
      unfold userOnline
      rw [List.any_eq_true]
      obtain ⟨t, htmem, htid, htmail⟩ := hMother
      refine ⟨t, ?_, htmail⟩
      show t ∈ unorderedDelete st.sessions preM.length
      rw [hPermM.mem_iff]
      rw [hsessM] at htmem
      rcases List.mem_append.mp htmem with h | h
      · exact List.mem_append.mpr (Or.inl h)
      · rcases List.mem_cons.mp h with rfl | h2
        · exact absurd rfl htid
        · exact List.mem_append.mpr (Or.inr h2)
    rw [huon]
    simp only [if_true]
    refine ⟨?_, ?_, hPermM⟩ <;> trivial

/-- Last live session of `a@x` in the concrete close scenario. -/
def c8sN : LocalDBSession := { id := 0, email := "a@x", events := [] }

/-- One of the two live sessions of `b@x`. -/
def c8sM : LocalDBSession := { id := 3, email := "b@x", events := [] }

/-- The sibling session of `b@x` that stays live. -/
def c8s4 : LocalDBSession := { id := 4, email := "b@x", events := [] }

/-- A session of `c@x` that was force-evicted by `DisconnectOthers`. -/
def c8sE : LocalDBSession :=
  { id := 1, email := "c@x", events := [{ type := .intentionalDisconnect }]
    intentionalDiscon := true }

/-- A session of `c@x` that already closed itself. -/
def c8sC : LocalDBSession := { id := 2, email := "c@x", events := [], closed := true }

/-- `a@x`, buddy of `b@x`. -/
def c8uA : UserInfo := { mkUser "a@x" "pw" with buddies := ["b@x"] }

/-- Registry for the concrete close scenario. -/
def c8State : LocalEventDB :=
  { sessions := [c8sN, c8sM, c8s4]
    detached := [c8sE, c8sC]
    db := [c8uA, { mkUser "b@x" "pw" with buddies := ["a@x"] }, mkUser "c@x" "pw"]
    bufferSize := 10, nextId := 5 }

/-- Witness for `close_semantics`: closing the evicted session 1, the
already-closed session 2, the last `a@x` session 0 (whose buddy `b@x`
gets the Offline broadcast), and one of `b@x`'s two sessions (no
broadcast). -/
theorem close_semantics_witness :
    ((c8State.sessions ++ c8State.detached).map (fun t => t.id)).Nodup ∧
    getSession c8State 1 = some c8sE ∧
    c8sE.intentionalDiscon = true ∧
    c8sE.closed = false ∧
    getSession c8State 2 = some c8sC ∧
    c8sC.closed = true ∧
    c8State.sessions = [] ++ c8sN :: [c8sM, c8s4] ∧
    c8sN.closed = false ∧
    c8sN.intentionalDiscon = false ∧
    findUser c8State.db c8sN.email = some c8uA ∧
    (∀ t ∈ c8State.sessions, t.id ≠ c8sN.id →
      emailsEquivalent t.email c8sN.email = false) ∧
    (∀ t ∈ c8State.sessions, t.events.length < c8State.bufferSize) ∧
    c8State.sessions = [c8sN] ++ c8sM :: [c8s4] ∧
    c8sM.closed = false ∧
    c8sM.intentionalDiscon = false ∧
    (∃ t ∈ c8State.sessions, t.id ≠ c8sM.id ∧
      emailsEquivalent t.email c8sM.email = true) ∧
    ((sessionClose c8State 1 9 =
        (.ok, mapSession 1 (fun x => { x with closed := true }) c8State) ∧
      (mapSession 1 (fun x => { x with closed := true }) c8State).sessions.map
          (fun t => (t.id, t.events)) = c8State.sessions.map (fun t => (t.id, t.events)) ∧
      (mapSession 1 (fun x => { x with closed := true }) c8State).detached.map
          (fun t => (t.id, t.events)) = c8State.detached.map (fun t => (t.id, t.events))) ∧
    sessionClose c8State 2 9 = (.errNotOpen, c8State) ∧
    ((sessionClose c8State 0 9).1 = .ok ∧
      (sessionClose c8State 0 9).2.sessions =
        (unorderedDelete c8State.sessions 0).map
          (fun t => if containsEmail c8uA.buddies t.email then
            { t with events := t.events ++ [offlineStatusEvent 9] } else t) ∧
      (unorderedDelete c8State.sessions 0).Perm ([] ++ [c8sM, c8s4])) ∧
    ((sessionClose c8State 3 9).1 = .ok ∧
      (sessionClose c8State 3 9).2.sessions = unorderedDelete c8State.sessions 1 ∧
      (unorderedDelete c8State.sessions 1).Perm ([c8sN] ++ [c8s4]))) :=
  ⟨by decide, by decide, rfl, rfl, by decide, rfl, rfl, rfl, rfl, by decide, by decide,
   by decide, rfl, rfl, rfl, by decide,
   close_semantics c8State 9 1 2 c8sE c8sC c8sN c8sM [] [c8sM, c8s4] [c8sN] [c8s4] c8uA
     (by decide) (by decide) rfl rfl (by decide) rfl rfl rfl rfl (by decide) (by decide)
     (by decide) rfl rfl rfl (by decide)⟩

end StatusServer
